import Mathlib

/-!
Ranking loss layers `RankingLossLayer` and `RealRankingLossLayer`.

Shallow embedding of `src/caffe/layers/ranking_loss_layer.cpp` and
`src/caffe/layers/ranking_loss_layer_tl.cpp`.

* The passes are written first with `Dtype` taken as `ℚ` (exact arithmetic), then once
  more over a record of arithmetic operations (`Forward_cpu_at`, `Backward_cpu_at`) whose
  `float` instance rounds every result to binary32; NaN and infinities are outside this
  development.
* A raw buffer (`cpu_data()`, `cpu_diff()`) is a `List ℚ`; a read `p[i]` is
  `p.getD i 0`, a write `p[i] = v` is `p.set i v`.
* A `for (int i = 0; i < n; ++i)` loop is `forLoop n body`, the left fold of the body
  over `0, 1, ..., n-1`.
-/

namespace caffe

/-! ## Data model -/

/-- Blob: the four extents of its shape and its two buffers. -/
structure Blob where
  num : Nat
  channels : Nat
  height : Nat
  width : Nat
  data : List ℚ
  diff : List ℚ
  deriving DecidableEq

instance : Inhabited Blob := ⟨⟨0, 0, 0, 0, [], []⟩⟩

/-- Number of elements of a blob: `count()`. -/
def Blob.count (b : Blob) : Nat := b.num * b.channels * b.height * b.width

/-- Counted loop `for (int i = 0; i < n; ++i) s = body i s`. -/
def forLoop {σ : Type} (n : Nat) (body : Nat → σ → σ) (s : σ) : σ :=
  (List.range n).foldl (fun acc i => body i acc) s

/-! ## Vector primitives of `caffe/util/math_functions` (not part of the layer sources) -/

/-- Modelled from the spec: `caffe_sub(n, a, b, y)` of `caffe/util/math_functions`, the
elementwise subtraction primitive `y[i] = a[i] - b[i]` for `i < n`. -/
def caffe_sub (n : Nat) (a b y : List ℚ) : List ℚ :=
  forLoop n (fun i y => y.set i (a.getD i 0 - b.getD i 0)) y

/-- Modelled from the spec: `caffe_cpu_axpby(n, alpha, x, beta, y)` of
`caffe/util/math_functions`, the scaling primitive `y[i] = alpha * x[i] + beta * y[i]`
for `i < n`. -/
def caffe_cpu_axpby (n : Nat) (alpha : ℚ) (x : List ℚ) (beta : ℚ) (y : List ℚ) : List ℚ :=
  forLoop n (fun i y => y.set i (alpha * x.getD i 0 + beta * y.getD i 0)) y

/-- Modelled from the spec: `caffe_set(n, alpha, y + off)` of `caffe/util/math_functions`,
which stores `alpha` into the `n` cells starting at offset `off` of `y`. -/
def caffe_set (n : Nat) (alpha : ℚ) (y : List ℚ) (off : Nat) : List ℚ :=
  forLoop n (fun k y => y.set (off + k) alpha) y

/-- Conversion `static_cast<int>(x)`: truncation toward zero (the value is assumed to fit
an `int`; outside that range the conversion is undefined in C++). -/
def static_cast_int (x : ℚ) : Int := Int.tdiv x.num (x.den : Int)

/-! ## RankingLossLayer -/

/-- Members of `RankingLossLayer` used on the CPU path; `margin` is
`layer_param_.ranking_loss_param().margin()`. -/
structure RankingLossLayer where
  margin : ℚ
  diff_ : List ℚ
  dist_mine_ : List ℚ
  deriving DecidableEq

/-- Body of the loop of `RankingLossLayer::Forward_cpu` (lines 63-76); the loop state is
`(dist_mine_, loss)`. -/
def RankingLossLayer.forwardBody (margin : ℚ) (ref2 ref3 diff : List ℚ) (i : Nat)
    (s : List ℚ × ℚ) : List ℚ × ℚ :=
  let dist :=
    if ref2.getD i 0 > ref3.getD i 0 + margin then s.1.set i (diff.getD i 0)
    else if ref2.getD i 0 < ref3.getD i 0 - margin then s.1.set i (-(diff.getD i 0))
    else s.1.set i 0
  (dist, s.2 + max (margin - dist.getD i 0) 0)

/-- `RankingLossLayer::Forward_cpu`: returns the layer with its refreshed caches and the
`top` vector with the loss stored in `top[0]->mutable_cpu_data()[0]`. -/
def RankingLossLayer.Forward_cpu (L : RankingLossLayer) (bottom top : List Blob) :
    RankingLossLayer × List Blob :=
  let count := (bottom.getD 0 default).count
  let diff := caffe_sub count (bottom.getD 0 default).data (bottom.getD 1 default).data L.diff_
  let margin := L.margin
  let s := forLoop (bottom.getD 0 default).num
    (RankingLossLayer.forwardBody margin (bottom.getD 2 default).data
      (bottom.getD 3 default).data diff) (L.dist_mine_, 0)
  let loss := s.2 / ((bottom.getD 0 default).num : ℚ)
  ({ L with diff_ := diff, dist_mine_ := s.1 },
   top.set 0 { top.getD 0 default with data := (top.getD 0 default).data.set 0 loss })

/-- Body of the inner loop of `RankingLossLayer::Backward_cpu` (lines 92-114) for the
input `bottom[i]` with `num = bottom[i]->num()` and `channels = bottom[i]->channels()`;
the loop state is the buffer `bout = bottom[i]->mutable_cpu_diff()`, and `lam` is
`top[0]->cpu_diff()[0]`. -/
def RankingLossLayer.backwardBody (margin lam : ℚ) (ref2 ref3 dist_mine : List ℚ)
    (num channels : Nat) (j : Nat) (bout : List ℚ) : List ℚ :=
  let sign : ℚ := if ref2.getD j 0 > ref3.getD j 0 then 1 else -1
  let alpha := sign * lam / (num : ℚ)
  let mdist := margin - dist_mine.getD j 0
  if mdist > 0 then
    if ref2.getD j 0 > ref3.getD j 0 + margin then bout.set j (-alpha)
    else if ref2.getD j 0 < ref3.getD j 0 - margin then bout.set j alpha
    else bout.set j 0
  else caffe_set channels 0 bout (j * channels)

/-- `RankingLossLayer::Backward_cpu`: returns the `bottom` vector with the gradient
buffers of the requested inputs rewritten. -/
def RankingLossLayer.Backward_cpu (L : RankingLossLayer) (top : List Blob)
    (propagate_down : List Bool) (bottom : List Blob) : List Blob :=
  let margin := L.margin
  forLoop 2 (fun i bottom =>
    if propagate_down.getD i false then
      let num := (bottom.getD i default).num
      let channels := (bottom.getD i default).channels
      let bout := forLoop num
        (RankingLossLayer.backwardBody margin ((top.getD 0 default).diff.getD 0 0)
          (bottom.getD 2 default).data (bottom.getD 3 default).data L.dist_mine_ num channels)
        (bottom.getD i default).diff
      bottom.set i { bottom.getD i default with diff := bout }
    else bottom) bottom

/-! ## RealRankingLossLayer -/

/-- Members of `RealRankingLossLayer` used on the CPU path; `margin` is
`layer_param_.real_ranking_loss_param().margin()`. -/
structure RealRankingLossLayer where
  margin : ℚ
  diff_ : List ℚ
  dist_mine_ : List ℚ
  diff2_ : List ℚ
  rescaled_ : List ℚ
  deriving DecidableEq

/-- Body of the loop of `RealRankingLossLayer::Forward_cpu` (lines 64-72); the loop state
is `(dist_mine_, loss)`. -/
def RealRankingLossLayer.forwardBody (margin : ℚ) (rescaled diff : List ℚ) (i : Nat)
    (s : List ℚ × ℚ) : List ℚ × ℚ :=
  let dist :=
    if static_cast_int (rescaled.getD i 0) ≠ 0 then s.1.set i (diff.getD i 0)
    else s.1.set i (-(diff.getD i 0))
  (dist, s.2 + max (margin - dist.getD i 0) 0)

/-- `RealRankingLossLayer::Forward_cpu`; the literal `Dtype(0.0125)` is the rational
`1/80`. -/
def RealRankingLossLayer.Forward_cpu (L : RealRankingLossLayer) (bottom top : List Blob) :
    RealRankingLossLayer × List Blob :=
  let count := (bottom.getD 0 default).count
  let diff := caffe_sub count (bottom.getD 0 default).data (bottom.getD 1 default).data L.diff_
  let diff2 := caffe_sub count (bottom.getD 2 default).data (bottom.getD 3 default).data L.diff2_
  let rescaled := caffe_cpu_axpby count (1 / 80) diff2 0 L.rescaled_
  let margin := L.margin
  let s := forLoop (bottom.getD 0 default).num
    (RealRankingLossLayer.forwardBody margin rescaled diff) (L.dist_mine_, 0)
  let loss := s.2 / ((bottom.getD 0 default).num : ℚ)
  ({ L with diff_ := diff, dist_mine_ := s.1, diff2_ := diff2, rescaled_ := rescaled },
   top.set 0 { top.getD 0 default with data := (top.getD 0 default).data.set 0 loss })

/-- Body of the inner loop of `RealRankingLossLayer::Backward_cpu` (lines 88-102); the
loop state is the buffer `bout = bottom[i]->mutable_cpu_diff()`. -/
def RealRankingLossLayer.backwardBody (margin alpha : ℚ) (rescaled dist_mine : List ℚ)
    (channels : Nat) (j : Nat) (bout : List ℚ) : List ℚ :=
  let mdist := margin - dist_mine.getD j 0
  if mdist > 0 then
    if static_cast_int (rescaled.getD j 0) ≠ 0 then bout.set j (-alpha)
    else bout.set j alpha
  else caffe_set channels 0 bout (j * channels)

/-- `RealRankingLossLayer::Backward_cpu`: returns the `bottom` vector with the gradient
buffers of the requested inputs rewritten. -/
def RealRankingLossLayer.Backward_cpu (L : RealRankingLossLayer) (top : List Blob)
    (propagate_down : List Bool) (bottom : List Blob) : List Blob :=
  let margin := L.margin
  forLoop 2 (fun i bottom =>
    if propagate_down.getD i false then
      let sign : ℚ := if i = 0 then 1 else -1
      let alpha := sign * (top.getD 0 default).diff.getD 0 0 / ((bottom.getD i default).num : ℚ)
      let num := (bottom.getD i default).num
      let channels := (bottom.getD i default).channels
      let bout := forLoop num
        (RealRankingLossLayer.backwardBody margin alpha L.rescaled_ L.dist_mine_ channels)
        (bottom.getD i default).diff
      bottom.set i { bottom.getD i default with diff := bout }
    else bottom) bottom

/-! ## Set-up and capability declarations -/

/-- Outcome of a failed assertion: the process aborts. -/
inductive Fatal where
  | check_failed
  deriving DecidableEq

/-- Assertion `CHECK_EQ(a, b)`: the call continues when `a = b` and aborts otherwise. -/
def CHECK_EQ (a b : Nat) : Except Fatal Unit :=
  if a = b then .ok () else .error .check_failed

/-- Modelled from the spec: `Blob::Reshape` of `caffe/blob`, seen on one buffer of a member
blob: set-up "allocates internal buffers sized N", so the buffer has `count` cells
afterwards; cells that fit are kept and a grown buffer is fresh (zero). -/
def Reshape (buf : List ℚ) (count : Nat) : List ℚ :=
  if count ≤ buf.length then buf.take count else List.replicate count 0

/-- `RankingLossLayer::LayerSetUp` (lines 11-39). The call of the base class,
`LossLayer<Dtype>::LayerSetUp(bottom, top)`, belongs to the host framework and is the
parameter `LossLayer_LayerSetUp`; `summer_vec_`, temporary storage of the GPU path, is not
embedded. The result is an error when a check aborts. -/
def RankingLossLayer.LayerSetUp
    (LossLayer_LayerSetUp : List Blob → List Blob → Except Fatal Unit)
    (L : RankingLossLayer) (bottom top : List Blob) : Except Fatal RankingLossLayer := do
  LossLayer_LayerSetUp bottom top
  CHECK_EQ (bottom.getD 0 default).channels 1
  CHECK_EQ (bottom.getD 0 default).height 1
  CHECK_EQ (bottom.getD 0 default).width 1
  CHECK_EQ (bottom.getD 1 default).channels 1
  CHECK_EQ (bottom.getD 1 default).height 1
  CHECK_EQ (bottom.getD 1 default).width 1
  CHECK_EQ (bottom.getD 2 default).channels 1
  CHECK_EQ (bottom.getD 2 default).height 1
  CHECK_EQ (bottom.getD 2 default).width 1
  CHECK_EQ (bottom.getD 3 default).channels 1
  CHECK_EQ (bottom.getD 3 default).height 1
  CHECK_EQ (bottom.getD 3 default).width 1
  let diff := Reshape L.diff_
    ((bottom.getD 0 default).num * (bottom.getD 0 default).channels * 1 * 1)
  let dist := Reshape L.dist_mine_ ((bottom.getD 0 default).num * 1 * 1 * 1)
  pure { L with diff_ := diff, dist_mine_ := dist }

/-- `RealRankingLossLayer::LayerSetUp` (lines 11-36), with the same conventions as
`RankingLossLayer.LayerSetUp`. -/
def RealRankingLossLayer.LayerSetUp
    (LossLayer_LayerSetUp : List Blob → List Blob → Except Fatal Unit)
    (L : RealRankingLossLayer) (bottom top : List Blob) :
    Except Fatal RealRankingLossLayer := do
  LossLayer_LayerSetUp bottom top
  CHECK_EQ (bottom.getD 0 default).channels 1
  CHECK_EQ (bottom.getD 1 default).channels 1
  CHECK_EQ (bottom.getD 0 default).height 1
  CHECK_EQ (bottom.getD 0 default).width 1
  CHECK_EQ (bottom.getD 1 default).height 1
  CHECK_EQ (bottom.getD 1 default).width 1
  CHECK_EQ (bottom.getD 2 default).channels 1
  CHECK_EQ (bottom.getD 2 default).height 1
  CHECK_EQ (bottom.getD 2 default).width 1
  CHECK_EQ (bottom.getD 3 default).channels 1
  CHECK_EQ (bottom.getD 3 default).height 1
  CHECK_EQ (bottom.getD 3 default).width 1
  let diff := Reshape L.diff_
    ((bottom.getD 0 default).num * (bottom.getD 0 default).channels * 1 * 1)
  let diff2 := Reshape L.diff2_
    ((bottom.getD 0 default).num * (bottom.getD 0 default).channels * 1 * 1)
  let rescaled := Reshape L.rescaled_
    ((bottom.getD 0 default).num * (bottom.getD 0 default).channels * 1 * 1)
  let dist := Reshape L.dist_mine_ ((bottom.getD 0 default).num * 1 * 1 * 1)
  pure { L with diff_ := diff, dist_mine_ := dist, diff2_ := diff2, rescaled_ := rescaled }

/-- `RankingLossLayer::AllowForceBackward` (ranking_loss_layer.hpp, lines 49-51). -/
def RankingLossLayer.AllowForceBackward (bottom_index : Int) : Bool := bottom_index != 2

/-- `RealRankingLossLayer::AllowForceBackward` (ranking_loss_layer.hpp, lines 111-113, and
real_ranking_loss_layer.hpp, lines 49-51: the two declarations have the same body). -/
def RealRankingLossLayer.AllowForceBackward (bottom_index : Int) : Bool := bottom_index != 2

/-- State after `RankingLossLayer::Backward_cpu`: the layer members, which the method only
reads (`dist_mine_.cpu_data()`), and the `bottom` vector it writes. -/
def RankingLossLayer.Backward_state (L : RankingLossLayer) (top : List Blob)
    (propagate_down : List Bool) (bottom : List Blob) : RankingLossLayer × List Blob :=
  (L, L.Backward_cpu top propagate_down bottom)

/-- State after `RealRankingLossLayer::Backward_cpu`: the layer members, which the method
only reads (`rescaled_.cpu_data()`, `dist_mine_.cpu_data()`), and the `bottom` vector it
writes. -/
def RealRankingLossLayer.Backward_state (L : RealRankingLossLayer) (top : List Blob)
    (propagate_down : List Bool) (bottom : List Blob) : RealRankingLossLayer × List Blob :=
  (L, L.Backward_cpu top propagate_down bottom)

/-! ## The layers at the arithmetic of `Dtype`

Both layers are templates over `Dtype`, built for `float` and `double`
(`INSTANTIATE_CLASS`). The definitions above take `Dtype` to be the rationals. The
definitions of this section repeat the four passes with every arithmetic operation taken
from a `Dtype` record, whose exact instance gives back the definitions above and whose
`float` instance rounds every result to IEEE 754 binary32 (round to nearest, ties to even,
subnormals included). Values are carried as rationals; NaN, infinities, signed zeros and
overflow are not represented, so the `float` instance is meant for finite values in range. -/

/-- Number of binary digits of `n`, computed with `fuel` halvings. -/
def bitLenAux : Nat → Nat → Nat
  | 0, _ => 0
  | fuel + 1, n => if n = 0 then 0 else bitLenAux fuel (n / 2) + 1

/-- Number of binary digits of `n`: `n` halvings are enough for every `n`. -/
def bitLength (n : Nat) : Nat := bitLenAux n n

/-- Nearest integer to `n / d`, ties to the even one (`d > 0`). -/
def roundHalfEven (n d : Nat) : Nat :=
  if 2 * (n % d) < d then n / d
  else if d < 2 * (n % d) then n / d + 1
  else if (n / d) % 2 = 0 then n / d else n / d + 1

/-- Floor of the binary logarithm of `a / b` (`a, b > 0`). -/
def floorLog2 (a b : Nat) : Int :=
  let d : Int := (bitLength a : Int) - (bitLength b : Int)
  if 0 ≤ d then (if 2 ^ d.toNat * b ≤ a then d else d - 1)
  else (if b ≤ a * 2 ^ (-d).toNat then d else d - 1)

/-- Rounding of the real `x` to the IEEE 754 binary format with `prec` significant bits and
least normal exponent `emin`: round to nearest, ties to even, gradual underflow. -/
def roundIEEE (prec : Nat) (emin : Int) (x : ℚ) : ℚ :=
  if x = 0 then 0 else
    let a := x.num.natAbs
    let b := x.den
    let g : Int := max (floorLog2 a b) emin - ((prec : Int) - 1)
    let v : ℚ :=
      if 0 ≤ g then ((roundHalfEven a (b * 2 ^ g.toNat) * 2 ^ g.toNat : Nat) : ℚ)
      else mkRat (roundHalfEven (a * 2 ^ (-g).toNat) b) (2 ^ (-g).toNat)
    if x < 0 then -v else v

/-- Rounding to `float` (binary32). -/
def fl32 (x : ℚ) : ℚ := roundIEEE 24 (-126) x

/-- Arithmetic of the template parameter `Dtype`: the four operations and the conversion
`Dtype(c)` / `static_cast<Dtype>(n)` of a literal or an integer. Comparisons, negation and
`std::max` are exact in every instance. -/
structure Dtype where
  add : ℚ → ℚ → ℚ
  sub : ℚ → ℚ → ℚ
  mul : ℚ → ℚ → ℚ
  div : ℚ → ℚ → ℚ
  cast : ℚ → ℚ

/-- Exact arithmetic: the instance at which the definitions above are written. -/
def Dtype.exact : Dtype := ⟨fun x y => x + y, fun x y => x - y, fun x y => x * y,
  fun x y => x / y, fun x => x⟩

/-- Instance `float`: every operation is the exact one followed by rounding to binary32. -/
def Dtype.float : Dtype := ⟨fun x y => fl32 (x + y), fun x y => fl32 (x - y),
  fun x y => fl32 (x * y), fun x y => fl32 (x / y), fl32⟩

/-- Modelled from the spec: `caffe_sub` at the arithmetic `D`. -/
def caffe_sub_at (D : Dtype) (n : Nat) (a b y : List ℚ) : List ℚ :=
  forLoop n (fun i y => y.set i (D.sub (a.getD i 0) (b.getD i 0))) y

/-- Modelled from the spec: `caffe_cpu_axpby` at the arithmetic `D`. -/
def caffe_cpu_axpby_at (D : Dtype) (n : Nat) (alpha : ℚ) (x : List ℚ) (beta : ℚ)
    (y : List ℚ) : List ℚ :=
  forLoop n (fun i y => y.set i (D.add (D.mul alpha (x.getD i 0)) (D.mul beta (y.getD i 0)))) y

/-- Body of the loop of `RankingLossLayer::Forward_cpu` at the arithmetic `D`. -/
def RankingLossLayer.forwardBody_at (D : Dtype) (margin : ℚ) (ref2 ref3 diff : List ℚ)
    (i : Nat) (s : List ℚ × ℚ) : List ℚ × ℚ :=
  let dist :=
    if ref2.getD i 0 > D.add (ref3.getD i 0) margin then s.1.set i (diff.getD i 0)
    else if ref2.getD i 0 < D.sub (ref3.getD i 0) margin then s.1.set i (-(diff.getD i 0))
    else s.1.set i (D.cast 0)
  (dist, D.add s.2 (max (D.sub margin (dist.getD i 0)) (D.cast 0)))

/-- `RankingLossLayer::Forward_cpu` at the arithmetic `D`. -/
def RankingLossLayer.Forward_cpu_at (D : Dtype) (L : RankingLossLayer)
    (bottom top : List Blob) : RankingLossLayer × List Blob :=
  let count := (bottom.getD 0 default).count
  let diff := caffe_sub_at D count (bottom.getD 0 default).data (bottom.getD 1 default).data
    L.diff_
  let margin := L.margin
  let s := forLoop (bottom.getD 0 default).num
    (RankingLossLayer.forwardBody_at D margin (bottom.getD 2 default).data
      (bottom.getD 3 default).data diff) (L.dist_mine_, D.cast 0)
  let loss := D.div s.2 (D.cast ((bottom.getD 0 default).num : ℚ))
  ({ L with diff_ := diff, dist_mine_ := s.1 },
   top.set 0 { top.getD 0 default with data := (top.getD 0 default).data.set 0 loss })

/-- Body of the inner loop of `RankingLossLayer::Backward_cpu` at the arithmetic `D`. -/
def RankingLossLayer.backwardBody_at (D : Dtype) (margin lam : ℚ)
    (ref2 ref3 dist_mine : List ℚ) (num channels : Nat) (j : Nat) (bout : List ℚ) : List ℚ :=
  let sign : ℚ := if ref2.getD j 0 > ref3.getD j 0 then 1 else -1
  let alpha := D.div (D.mul sign lam) (D.cast (num : ℚ))
  let mdist := D.sub margin (dist_mine.getD j 0)
  if mdist > D.cast 0 then
    if ref2.getD j 0 > D.add (ref3.getD j 0) margin then bout.set j (-alpha)
    else if ref2.getD j 0 < D.sub (ref3.getD j 0) margin then bout.set j alpha
    else bout.set j (D.cast 0)
  else caffe_set channels (D.cast 0) bout (j * channels)

/-- `RankingLossLayer::Backward_cpu` at the arithmetic `D`. -/
def RankingLossLayer.Backward_cpu_at (D : Dtype) (L : RankingLossLayer) (top : List Blob)
    (propagate_down : List Bool) (bottom : List Blob) : List Blob :=
  let margin := L.margin
  forLoop 2 (fun i bottom =>
    if propagate_down.getD i false then
      let num := (bottom.getD i default).num
      let channels := (bottom.getD i default).channels
      let bout := forLoop num
        (RankingLossLayer.backwardBody_at D margin ((top.getD 0 default).diff.getD 0 0)
          (bottom.getD 2 default).data (bottom.getD 3 default).data L.dist_mine_ num channels)
        (bottom.getD i default).diff
      bottom.set i { bottom.getD i default with diff := bout }
    else bottom) bottom

/-- Body of the loop of `RealRankingLossLayer::Forward_cpu` at the arithmetic `D`. -/
def RealRankingLossLayer.forwardBody_at (D : Dtype) (margin : ℚ) (rescaled diff : List ℚ)
    (i : Nat) (s : List ℚ × ℚ) : List ℚ × ℚ :=
  let dist :=
    if static_cast_int (rescaled.getD i 0) ≠ 0 then s.1.set i (diff.getD i 0)
    else s.1.set i (-(diff.getD i 0))
  (dist, D.add s.2 (max (D.sub margin (dist.getD i 0)) (D.cast 0)))

/-- `RealRankingLossLayer::Forward_cpu` at the arithmetic `D`; `Dtype(0.0125)` is the
conversion of `1/80`. -/
def RealRankingLossLayer.Forward_cpu_at (D : Dtype) (L : RealRankingLossLayer)
    (bottom top : List Blob) : RealRankingLossLayer × List Blob :=
  let count := (bottom.getD 0 default).count
  let diff := caffe_sub_at D count (bottom.getD 0 default).data (bottom.getD 1 default).data
    L.diff_
  let diff2 := caffe_sub_at D count (bottom.getD 2 default).data (bottom.getD 3 default).data
    L.diff2_
  let rescaled := caffe_cpu_axpby_at D count (D.cast (1 / 80)) diff2 (D.cast 0) L.rescaled_
  let margin := L.margin
  let s := forLoop (bottom.getD 0 default).num
    (RealRankingLossLayer.forwardBody_at D margin rescaled diff) (L.dist_mine_, D.cast 0)
  let loss := D.div s.2 (D.cast ((bottom.getD 0 default).num : ℚ))
  ({ L with diff_ := diff, dist_mine_ := s.1, diff2_ := diff2, rescaled_ := rescaled },
   top.set 0 { top.getD 0 default with data := (top.getD 0 default).data.set 0 loss })

/-- Body of the inner loop of `RealRankingLossLayer::Backward_cpu` at the arithmetic `D`. -/
def RealRankingLossLayer.backwardBody_at (D : Dtype) (margin alpha : ℚ)
    (rescaled dist_mine : List ℚ) (channels : Nat) (j : Nat) (bout : List ℚ) : List ℚ :=
  let mdist := D.sub margin (dist_mine.getD j 0)
  if mdist > D.cast 0 then
    if static_cast_int (rescaled.getD j 0) ≠ 0 then bout.set j (-alpha)
    else bout.set j alpha
  else caffe_set channels (D.cast 0) bout (j * channels)

/-- `RealRankingLossLayer::Backward_cpu` at the arithmetic `D`. -/
def RealRankingLossLayer.Backward_cpu_at (D : Dtype) (L : RealRankingLossLayer)
    (top : List Blob) (propagate_down : List Bool) (bottom : List Blob) : List Blob :=
  let margin := L.margin
  forLoop 2 (fun i bottom =>
    if propagate_down.getD i false then
      let sign : ℚ := if i = 0 then 1 else -1
      let alpha := D.div (D.mul sign ((top.getD 0 default).diff.getD 0 0))
        (D.cast ((bottom.getD i default).num : ℚ))
      let num := (bottom.getD i default).num
      let channels := (bottom.getD i default).channels
      let bout := forLoop num
        (RealRankingLossLayer.backwardBody_at D margin alpha L.rescaled_ L.dist_mine_ channels)
        (bottom.getD i default).diff
      bottom.set i { bottom.getD i default with diff := bout }
    else bottom) bottom

/-! ## Reading the results -/

/-- Scalar stored in `top[0]->cpu_data()[0]`. -/
def lossOf (top : List Blob) : ℚ := (top.getD 0 default).data.getD 0 0

/-- Input blob of shape `N x 1 x 1 x 1` holding `v`, with gradient buffer `g`. -/
def vecBlob (v g : List ℚ) : Blob := ⟨v.length, 1, 1, 1, v, g⟩

/-- Gradient `bottom[k]->cpu_diff()[i]`. -/
def gradOf (bottom : List Blob) (k i : Nat) : ℚ := (bottom.getD k default).diff.getD i 0

/-- Upstream loss weight `top[0]->cpu_diff()[0]`. -/
def lambdaOf (top : List Blob) : ℚ := (top.getD 0 default).diff.getD 0 0

/-- An input blob as the layers expect it after set-up: shape `N x 1 x 1 x 1` with
both buffers of `N` cells. -/
def Blob.IsVec (N : Nat) (b : Blob) : Prop :=
  b.num = N ∧ b.channels = 1 ∧ b.height = 1 ∧ b.width = 1 ∧ b.data.length = N ∧
    b.diff.length = N

instance (N : Nat) (b : Blob) : Decidable (b.IsVec N) := by
  unfold Blob.IsVec; infer_instance

/-! ## Closed forms used in the proofs -/

/-- Store loop `for j < n: y[j] = g j y[j]`. -/
def storeLoop (g : Nat → ℚ → ℚ) (n : Nat) (y : List ℚ) : List ℚ :=
  forLoop n (fun j y => y.set j (g j (y.getD j 0))) y

/-- One iteration of a hinge loop: store `f i` in the distance buffer, then add the
penalty read back from the buffer. -/
def hingeStep (margin : ℚ) (f : Nat → ℚ) (i : Nat) (s : List ℚ × ℚ) : List ℚ × ℚ :=
  (s.1.set i (f i), s.2 + max (margin - (s.1.set i (f i)).getD i 0) 0)

/-- Signed distance of §4.2 of the specification, written on the four input vectors. -/
def RankingLossLayer.signedDistance (margin : ℚ) (a b ra rb : List ℚ) (i : Nat) : ℚ :=
  if ra.getD i 0 > rb.getD i 0 + margin then a.getD i 0 - b.getD i 0
  else if ra.getD i 0 < rb.getD i 0 - margin then -(a.getD i 0 - b.getD i 0)
  else 0

/-- Value stored in `bout[j]` by one iteration of the inner loop of
`RankingLossLayer::Backward_cpu` when `channels = 1`. -/
def RankingLossLayer.gradValue (margin lam : ℚ) (ref2 ref3 dist_mine : List ℚ) (num : Nat)
    (j : Nat) : ℚ :=
  if margin - dist_mine.getD j 0 > 0 then
    if ref2.getD j 0 > ref3.getD j 0 + margin then
      -((if ref2.getD j 0 > ref3.getD j 0 then 1 else -1) * lam / (num : ℚ))
    else if ref2.getD j 0 < ref3.getD j 0 - margin then
      (if ref2.getD j 0 > ref3.getD j 0 then 1 else -1) * lam / (num : ℚ)
    else 0
  else 0

/-- Signed distance of §4.4 of the specification, written on the four input vectors. -/
def RealRankingLossLayer.signedDistance (a b ra rb : List ℚ) (i : Nat) : ℚ :=
  if static_cast_int ((1 / 80) * (ra.getD i 0 - rb.getD i 0)) ≠ 0 then a.getD i 0 - b.getD i 0
  else -(a.getD i 0 - b.getD i 0)

/-- Value stored in `bout[j]` by one iteration of the inner loop of
`RealRankingLossLayer::Backward_cpu` when `channels = 1`. -/
def RealRankingLossLayer.gradValue (margin alpha : ℚ) (rescaled dist_mine : List ℚ)
    (j : Nat) : ℚ :=
  if margin - dist_mine.getD j 0 > 0 then
    if static_cast_int (rescaled.getD j 0) ≠ 0 then -alpha else alpha
  else 0

/-! ## Loops and buffers -/

theorem forLoop_zero {σ : Type} (body : Nat → σ → σ) (s : σ) : forLoop 0 body s = s := rfl

theorem forLoop_succ {σ : Type} (n : Nat) (body : Nat → σ → σ) (s : σ) :
    forLoop (n + 1) body s = body n (forLoop n body s) := by
  simp [forLoop, List.range_succ, List.foldl_append]

theorem getD_set (l : List ℚ) (i j : Nat) (v : ℚ) :
    (l.set i v).getD j 0 = if i = j ∧ i < l.length then v else l.getD j 0 := by
  by_cases hij : i = j
  · subst hij
    by_cases hl : i < l.length
    · simp [hl]
    · have hle : l.length ≤ i := Nat.le_of_not_lt hl
      simp [hl, List.set_eq_of_length_le hle]
  · simp [hij, List.getElem?_set_ne hij]

theorem storeLoop_length (g : Nat → ℚ → ℚ) (n : Nat) (y : List ℚ) :
    (storeLoop g n y).length = y.length := by
  induction n with
  | zero => rfl
  | succ n ih =>
    unfold storeLoop at ih ⊢
    rw [forLoop_succ, List.length_set, ih]

theorem storeLoop_getD (g : Nat → ℚ → ℚ) (n : Nat) (y : List ℚ) (i : Nat) :
    (storeLoop g n y).getD i 0 =
      if i < n ∧ i < y.length then g i (y.getD i 0) else y.getD i 0 := by
  induction n with
  | zero => simp [storeLoop, forLoop_zero]
  | succ n ih =>
    have hlen := storeLoop_length g n y
    unfold storeLoop at ih hlen ⊢
    rw [forLoop_succ, getD_set, hlen]
    by_cases hni : n = i
    · subst hni
      by_cases hl : n < y.length
      · rw [if_pos ⟨rfl, hl⟩, if_pos ⟨Nat.lt_succ_self n, hl⟩, ih]
        simp
      · rw [if_neg (fun h => hl h.2), if_neg (fun h => hl h.2), ih,
          if_neg (fun h => hl h.2)]
    · rw [if_neg (fun h => hni h.1), ih]
      have : (i < n + 1 ∧ i < y.length) ↔ (i < n ∧ i < y.length) := by
        constructor
        · rintro ⟨h1, h2⟩; exact ⟨by omega, h2⟩
        · rintro ⟨h1, h2⟩; exact ⟨by omega, h2⟩
      simp only [this]

theorem caffe_sub_length (n : Nat) (a b y : List ℚ) : (caffe_sub n a b y).length = y.length :=
  storeLoop_length (fun i _ => a.getD i 0 - b.getD i 0) n y

theorem caffe_sub_getD (n : Nat) (a b y : List ℚ) (i : Nat) (hi : i < n) (hy : i < y.length) :
    (caffe_sub n a b y).getD i 0 = a.getD i 0 - b.getD i 0 := by
  have h := storeLoop_getD (fun i _ => a.getD i 0 - b.getD i 0) n y i
  rw [if_pos ⟨hi, hy⟩] at h
  exact h

theorem caffe_cpu_axpby_length (n : Nat) (alpha : ℚ) (x : List ℚ) (beta : ℚ) (y : List ℚ) :
    (caffe_cpu_axpby n alpha x beta y).length = y.length :=
  storeLoop_length (fun i v => alpha * x.getD i 0 + beta * v) n y

theorem caffe_cpu_axpby_getD (n : Nat) (alpha : ℚ) (x : List ℚ) (beta : ℚ) (y : List ℚ)
    (i : Nat) (hi : i < n) (hy : i < y.length) :
    (caffe_cpu_axpby n alpha x beta y).getD i 0 = alpha * x.getD i 0 + beta * y.getD i 0 := by
  have h := storeLoop_getD (fun i v => alpha * x.getD i 0 + beta * v) n y i
  rw [if_pos ⟨hi, hy⟩] at h
  exact h

theorem caffe_set_one (alpha : ℚ) (y : List ℚ) (off : Nat) :
    caffe_set 1 alpha y off = y.set off alpha := by
  simp [caffe_set, forLoop_succ, forLoop_zero]

theorem forLoop_hingeStep (margin : ℚ) (f : Nat → ℚ) (d : List ℚ) (l : ℚ) (n : Nat)
    (hn : n ≤ d.length) :
    forLoop n (hingeStep margin f) (d, l) =
      (storeLoop (fun j _ => f j) n d,
        l + ∑ i in Finset.range n, max (margin - f i) 0) := by
  induction n with
  | zero => simp [forLoop_zero, storeLoop]
  | succ n ih =>
    have hlen := storeLoop_length (fun j _ => f j) n d
    rw [forLoop_succ, ih (by omega)]
    unfold hingeStep
    simp only [getD_set, hlen]
    have hn' : n < d.length := by omega
    simp only [hn', and_self, if_true, Finset.sum_range_succ, add_assoc]
    simp [storeLoop, forLoop_succ]

/-! ## RankingLossLayer: forward pass -/

theorem Ranking_Forward_cpu_cons (L : RankingLossLayer) (b0 b1 b2 b3 t : Blob)
    (ts : List Blob) :
    L.Forward_cpu [b0, b1, b2, b3] (t :: ts) =
      ({ L with
          diff_ := caffe_sub b0.count b0.data b1.data L.diff_,
          dist_mine_ := (forLoop b0.num (RankingLossLayer.forwardBody L.margin b2.data b3.data
            (caffe_sub b0.count b0.data b1.data L.diff_)) (L.dist_mine_, 0)).1 },
        { t with
          data := t.data.set 0 ((forLoop b0.num (RankingLossLayer.forwardBody L.margin b2.data
            b3.data (caffe_sub b0.count b0.data b1.data L.diff_)) (L.dist_mine_, 0)).2 /
              (b0.num : ℚ)) } :: ts) := rfl

theorem Ranking_forwardBody_eq (margin : ℚ) (ref2 ref3 diff : List ℚ) :
    RankingLossLayer.forwardBody margin ref2 ref3 diff =
      hingeStep margin (fun i =>
        if ref2.getD i 0 > ref3.getD i 0 + margin then diff.getD i 0
        else if ref2.getD i 0 < ref3.getD i 0 - margin then -(diff.getD i 0)
        else 0) := by
  funext i s
  unfold RankingLossLayer.forwardBody hingeStep
  dsimp only
  split_ifs <;> rfl

theorem Blob.IsVec.count_eq {N : Nat} {b : Blob} (h : b.IsVec N) : b.count = N := by
  obtain ⟨h1, h2, h3, h4, _, _⟩ := h
  simp [Blob.count, h1, h2, h3, h4]

theorem lossOf_cons (t : Blob) (ts : List Blob) (v : ℚ) (ht : 0 < t.data.length) :
    lossOf ({ t with data := t.data.set 0 v } :: ts) = v := by
  unfold lossOf
  rw [List.getD_cons_zero]
  show (t.data.set 0 v).getD 0 0 = v
  rw [getD_set, if_pos ⟨rfl, ht⟩]

/-- The caches and the loss produced by `RankingLossLayer::Forward_cpu`, written on the
input vectors. -/
theorem Ranking_Forward_cpu_closed (N : Nat) (L : RankingLossLayer)
    (b0 b1 b2 b3 t : Blob) (ts : List Blob)
    (h0 : b0.IsVec N) (hd : L.diff_.length = N) (hm : L.dist_mine_.length = N)
    (ht : 0 < t.data.length) :
    (∀ i, i < N → (L.Forward_cpu [b0, b1, b2, b3] (t :: ts)).1.diff_.getD i 0 =
        b0.data.getD i 0 - b1.data.getD i 0) ∧
    (∀ i, i < N → (L.Forward_cpu [b0, b1, b2, b3] (t :: ts)).1.dist_mine_.getD i 0 =
        RankingLossLayer.signedDistance L.margin b0.data b1.data b2.data b3.data i) ∧
    lossOf (L.Forward_cpu [b0, b1, b2, b3] (t :: ts)).2 =
      (∑ i in Finset.range N, max (L.margin -
        RankingLossLayer.signedDistance L.margin b0.data b1.data b2.data b3.data i) 0) /
          (N : ℚ) := by
  have hc := h0.count_eq
  have hnum : b0.num = N := h0.1
  have hdiff : ∀ i, i < N → (caffe_sub N b0.data b1.data L.diff_).getD i 0 =
      b0.data.getD i 0 - b1.data.getD i 0 :=
    fun i hi => caffe_sub_getD N _ _ _ i hi (by omega)
  rw [Ranking_Forward_cpu_cons, hc, hnum, Ranking_forwardBody_eq,
    forLoop_hingeStep _ _ _ _ _ (by omega)]
  dsimp only
  refine ⟨hdiff, ?_, ?_⟩
  · intro i hi
    rw [storeLoop_getD, if_pos ⟨hi, by omega⟩]
    simp only [RankingLossLayer.signedDistance, hdiff i hi]
  · rw [lossOf_cons _ _ _ ht, zero_add]
    congr 1
    apply Finset.sum_congr rfl
    intro i hi
    simp only [RankingLossLayer.signedDistance, hdiff i (Finset.mem_range.mp hi)]

/-! ## RankingLossLayer: backward pass -/

theorem Ranking_backwardBody_eq (margin lam : ℚ) (ref2 ref3 dist_mine : List ℚ)
    (num : Nat) :
    RankingLossLayer.backwardBody margin lam ref2 ref3 dist_mine num 1 =
      fun j bout => bout.set j
        ((fun k (_ : ℚ) => RankingLossLayer.gradValue margin lam ref2 ref3 dist_mine num k) j
          (bout.getD j 0)) := by
  funext j bout
  unfold RankingLossLayer.backwardBody RankingLossLayer.gradValue
  simp only [caffe_set_one, Nat.mul_one]
  split_ifs <;> rfl

theorem Ranking_Backward_cpu_closed (N : Nat) (L : RankingLossLayer)
    (top : List Blob) (pd : List Bool) (b0 b1 b2 b3 : Blob)
    (h0 : b0.IsVec N) (h1 : b1.IsVec N) :
    L.Backward_cpu top pd [b0, b1, b2, b3] =
      [ { b0 with diff := if pd.getD 0 false = true then
            storeLoop (fun k _ => RankingLossLayer.gradValue L.margin
              ((top.getD 0 default).diff.getD 0 0) b2.data b3.data L.dist_mine_ N k) N b0.diff
            else b0.diff },
        { b1 with diff := if pd.getD 1 false = true then
            storeLoop (fun k _ => RankingLossLayer.gradValue L.margin
              ((top.getD 0 default).diff.getD 0 0) b2.data b3.data L.dist_mine_ N k) N b1.diff
            else b1.diff },
        b2, b3 ] := by
  obtain ⟨n0, c0, e0, w0, d0, g0⟩ := b0
  obtain ⟨n1, c1, e1, w1, d1, g1⟩ := b1
  obtain ⟨hn0, hc0, -⟩ := h0
  obtain ⟨hn1, hc1, -⟩ := h1
  dsimp only at hn0 hc0 hn1 hc1
  subst hn0 hc0 hc1
  subst hn1
  unfold RankingLossLayer.Backward_cpu
  rw [show (2 : Nat) = 0 + 1 + 1 from rfl, forLoop_succ, forLoop_succ, forLoop_zero]
  by_cases hp0 : pd.getD 0 false = true <;> by_cases hp1 : pd.getD 1 false = true <;>
    simp only [hp0, hp1, if_true, if_false, List.getD_cons_zero, List.getD_cons_succ,
      List.set_cons_zero, List.set_cons_succ,
      Ranking_backwardBody_eq, storeLoop, Bool.false_eq_true]

theorem Ranking_gradOf_Backward_cpu (N : Nat) (L : RankingLossLayer)
    (top : List Blob) (pd : List Bool) (b0 b1 b2 b3 : Blob)
    (h0 : b0.IsVec N) (h1 : b1.IsVec N) (k : Nat) (hk : k < 2)
    (hp : pd.getD k false = true) (i : Nat) (hi : i < N) :
    gradOf (L.Backward_cpu top pd [b0, b1, b2, b3]) k i =
      RankingLossLayer.gradValue L.margin ((top.getD 0 default).diff.getD 0 0) b2.data b3.data
        L.dist_mine_ N i := by
  rw [Ranking_Backward_cpu_closed N L top pd b0 b1 b2 b3 h0 h1]
  have hl0 : b0.diff.length = N := h0.2.2.2.2.2
  have hl1 : b1.diff.length = N := h1.2.2.2.2.2
  unfold gradOf
  interval_cases k
  · simp only [List.getD_cons_zero, hp, if_true]
    rw [storeLoop_getD, if_pos ⟨hi, by omega⟩]
  · simp only [List.getD_cons_zero, List.getD_cons_succ, hp, if_true]
    rw [storeLoop_getD, if_pos ⟨hi, by omega⟩]

/-! ## RealRankingLossLayer: forward pass -/

theorem RealRanking_Forward_cpu_cons (L : RealRankingLossLayer) (b0 b1 b2 b3 t : Blob)
    (ts : List Blob) :
    L.Forward_cpu [b0, b1, b2, b3] (t :: ts) =
      ({ L with
          diff_ := caffe_sub b0.count b0.data b1.data L.diff_,
          dist_mine_ := (forLoop b0.num (RealRankingLossLayer.forwardBody L.margin
            (caffe_cpu_axpby b0.count (1 / 80) (caffe_sub b0.count b2.data b3.data L.diff2_) 0
              L.rescaled_)
            (caffe_sub b0.count b0.data b1.data L.diff_)) (L.dist_mine_, 0)).1,
          diff2_ := caffe_sub b0.count b2.data b3.data L.diff2_,
          rescaled_ := caffe_cpu_axpby b0.count (1 / 80)
            (caffe_sub b0.count b2.data b3.data L.diff2_) 0 L.rescaled_ },
        { t with
          data := t.data.set 0 ((forLoop b0.num (RealRankingLossLayer.forwardBody L.margin
            (caffe_cpu_axpby b0.count (1 / 80) (caffe_sub b0.count b2.data b3.data L.diff2_) 0
              L.rescaled_)
            (caffe_sub b0.count b0.data b1.data L.diff_)) (L.dist_mine_, 0)).2 /
              (b0.num : ℚ)) } :: ts) := rfl

theorem RealRanking_forwardBody_eq (margin : ℚ) (rescaled diff : List ℚ) :
    RealRankingLossLayer.forwardBody margin rescaled diff =
      hingeStep margin (fun i =>
        if static_cast_int (rescaled.getD i 0) ≠ 0 then diff.getD i 0
        else -(diff.getD i 0)) := by
  funext i s
  unfold RealRankingLossLayer.forwardBody hingeStep
  dsimp only
  split_ifs <;> rfl

/-- The caches and the loss produced by `RealRankingLossLayer::Forward_cpu`, written on
the input vectors. -/
theorem RealRanking_Forward_cpu_closed (N : Nat) (L : RealRankingLossLayer)
    (b0 b1 b2 b3 t : Blob) (ts : List Blob)
    (h0 : b0.IsVec N) (hd : L.diff_.length = N) (hm : L.dist_mine_.length = N)
    (hd2 : L.diff2_.length = N) (hr : L.rescaled_.length = N) (ht : 0 < t.data.length) :
    (∀ i, i < N → (L.Forward_cpu [b0, b1, b2, b3] (t :: ts)).1.diff_.getD i 0 =
        b0.data.getD i 0 - b1.data.getD i 0) ∧
    (∀ i, i < N → (L.Forward_cpu [b0, b1, b2, b3] (t :: ts)).1.rescaled_.getD i 0 =
        (1 / 80) * (b2.data.getD i 0 - b3.data.getD i 0)) ∧
    (∀ i, i < N → (L.Forward_cpu [b0, b1, b2, b3] (t :: ts)).1.dist_mine_.getD i 0 =
        RealRankingLossLayer.signedDistance b0.data b1.data b2.data b3.data i) ∧
    lossOf (L.Forward_cpu [b0, b1, b2, b3] (t :: ts)).2 =
      (∑ i in Finset.range N, max (L.margin -
        RealRankingLossLayer.signedDistance b0.data b1.data b2.data b3.data i) 0) /
          (N : ℚ) := by
  have hc := h0.count_eq
  have hnum : b0.num = N := h0.1
  have hdiff : ∀ i, i < N → (caffe_sub N b0.data b1.data L.diff_).getD i 0 =
      b0.data.getD i 0 - b1.data.getD i 0 :=
    fun i hi => caffe_sub_getD N _ _ _ i hi (by omega)
  have hresc : ∀ i, i < N →
      (caffe_cpu_axpby N (1 / 80) (caffe_sub N b2.data b3.data L.diff2_) 0 L.rescaled_).getD i 0 =
        (1 / 80) * (b2.data.getD i 0 - b3.data.getD i 0) := by
    intro i hi
    rw [caffe_cpu_axpby_getD N _ _ _ _ i hi (by omega),
      caffe_sub_getD N _ _ _ i hi (by omega), zero_mul, add_zero]
  rw [RealRanking_Forward_cpu_cons, hc, hnum, RealRanking_forwardBody_eq,
    forLoop_hingeStep _ _ _ _ _ (by omega)]
  dsimp only
  refine ⟨hdiff, hresc, ?_, ?_⟩
  · intro i hi
    rw [storeLoop_getD, if_pos ⟨hi, by omega⟩]
    simp only [RealRankingLossLayer.signedDistance, hdiff i hi, hresc i hi]
  · rw [lossOf_cons _ _ _ ht, zero_add]
    congr 1
    apply Finset.sum_congr rfl
    intro i hi
    simp only [RealRankingLossLayer.signedDistance, hdiff i (Finset.mem_range.mp hi),
      hresc i (Finset.mem_range.mp hi)]

/-! ## RealRankingLossLayer: backward pass -/

theorem RealRanking_backwardBody_eq (margin alpha : ℚ) (rescaled dist_mine : List ℚ) :
    RealRankingLossLayer.backwardBody margin alpha rescaled dist_mine 1 =
      fun j bout => bout.set j
        ((fun k (_ : ℚ) => RealRankingLossLayer.gradValue margin alpha rescaled dist_mine k) j
          (bout.getD j 0)) := by
  funext j bout
  unfold RealRankingLossLayer.backwardBody RealRankingLossLayer.gradValue
  simp only [caffe_set_one, Nat.mul_one]
  split_ifs <;> rfl

theorem RealRanking_Backward_cpu_closed (N : Nat) (L : RealRankingLossLayer)
    (top : List Blob) (pd : List Bool) (b0 b1 b2 b3 : Blob)
    (h0 : b0.IsVec N) (h1 : b1.IsVec N) :
    L.Backward_cpu top pd [b0, b1, b2, b3] =
      [ { b0 with diff := (if pd.getD 0 false = true then
            storeLoop (fun j _ => RealRankingLossLayer.gradValue L.margin
              (1 * (top.getD 0 default).diff.getD 0 0 / (N : ℚ)) L.rescaled_ L.dist_mine_ j)
              N b0.diff
            else b0.diff) },
        { b1 with diff := (if pd.getD 1 false = true then
            storeLoop (fun j _ => RealRankingLossLayer.gradValue L.margin
              (-1 * (top.getD 0 default).diff.getD 0 0 / (N : ℚ)) L.rescaled_ L.dist_mine_ j)
              N b1.diff
            else b1.diff) },
        b2, b3 ] := by
  obtain ⟨n0, c0, e0, w0, d0, g0⟩ := b0
  obtain ⟨n1, c1, e1, w1, d1, g1⟩ := b1
  obtain ⟨hn0, hc0, -⟩ := h0
  obtain ⟨hn1, hc1, -⟩ := h1
  dsimp only at hn0 hc0 hn1 hc1
  subst hn0 hc0 hc1
  subst hn1
  unfold RealRankingLossLayer.Backward_cpu
  rw [show (2 : Nat) = 0 + 1 + 1 from rfl, forLoop_succ, forLoop_succ, forLoop_zero]
  by_cases hp0 : pd.getD 0 false = true <;> by_cases hp1 : pd.getD 1 false = true <;>
    simp only [hp0, hp1, if_true, if_false, List.getD_cons_zero, List.getD_cons_succ,
      List.set_cons_zero, List.set_cons_succ, Nat.zero_add, one_ne_zero,
      RealRanking_backwardBody_eq, storeLoop, Bool.false_eq_true]

theorem RealRanking_gradOf_Backward_cpu (N : Nat) (L : RealRankingLossLayer)
    (top : List Blob) (pd : List Bool) (b0 b1 b2 b3 : Blob)
    (h0 : b0.IsVec N) (h1 : b1.IsVec N) (k : Nat) (hk : k < 2)
    (hp : pd.getD k false = true) (i : Nat) (hi : i < N) :
    gradOf (L.Backward_cpu top pd [b0, b1, b2, b3]) k i =
      RealRankingLossLayer.gradValue L.margin
        ((if k = 0 then 1 else -1) * (top.getD 0 default).diff.getD 0 0 / (N : ℚ))
        L.rescaled_ L.dist_mine_ i := by
  rw [RealRanking_Backward_cpu_closed N L top pd b0 b1 b2 b3 h0 h1]
  have hl0 : b0.diff.length = N := h0.2.2.2.2.2
  have hl1 : b1.diff.length = N := h1.2.2.2.2.2
  unfold gradOf
  interval_cases k
  · simp only [List.getD_cons_zero, hp, if_true]
    rw [storeLoop_getD, if_pos ⟨hi, by omega⟩]
  · simp only [List.getD_cons_zero, List.getD_cons_succ, hp, if_true, one_ne_zero, if_false]
    rw [storeLoop_getD, if_pos ⟨hi, by omega⟩]

/-! ## Perturbing one score -/

theorem hinge_shift (m d e : ℚ) (h : |e| < m - d) :
    max (m - (d + e)) 0 - max (m - d) 0 = -e := by
  obtain ⟨h1, h2⟩ := abs_lt.mp h
  rw [max_eq_left (by linarith), max_eq_left (by linarith)]
  ring

theorem hinge_sum_perturb (N : Nat) (m : ℚ) (f g : Nat → ℚ) (i : Nat)
    (hi : i < N) (e : ℚ) (hne : ∀ j, j ≠ i → g j = f j) (hie : g i = f i + e)
    (he : |e| < m - f i) :
    (∑ j in Finset.range N, max (m - g j) 0) / (N : ℚ) -
      (∑ j in Finset.range N, max (m - f j) 0) / (N : ℚ) = -e / (N : ℚ) := by
  rw [← sub_div, ← Finset.sum_sub_distrib,
    Finset.sum_eq_single_of_mem i (Finset.mem_range.mpr hi), hie, hinge_shift m (f i) e he]
  intro j _ hji
  rw [hne j hji, sub_self]

theorem Blob.IsVec.set_data {N : Nat} {b : Blob} (h : b.IsVec N) (i : Nat) (v : ℚ) :
    Blob.IsVec N { b with data := b.data.set i v } := by
  obtain ⟨h1, h2, h3, h4, h5, h6⟩ := h
  exact ⟨h1, h2, h3, h4, by simpa using h5, h6⟩

theorem RealRanking_signedDistance_set_a_ne (a b ra rb : List ℚ) (i j : Nat) (v : ℚ)
    (h : j ≠ i) :
    RealRankingLossLayer.signedDistance (a.set i v) b ra rb j =
      RealRankingLossLayer.signedDistance a b ra rb j := by
  simp only [RealRankingLossLayer.signedDistance, getD_set,
    if_neg (show ¬(i = j ∧ i < a.length) from fun h' => h h'.1.symm)]

theorem RealRanking_signedDistance_set_b_ne (a b ra rb : List ℚ) (i j : Nat) (v : ℚ)
    (h : j ≠ i) :
    RealRankingLossLayer.signedDistance a (b.set i v) ra rb j =
      RealRankingLossLayer.signedDistance a b ra rb j := by
  simp only [RealRankingLossLayer.signedDistance, getD_set,
    if_neg (show ¬(i = j ∧ i < b.length) from fun h' => h h'.1.symm)]

theorem RealRanking_signedDistance_set_a (a b ra rb : List ℚ) (i : Nat) (e : ℚ)
    (h : i < a.length) :
    RealRankingLossLayer.signedDistance (a.set i (a.getD i 0 + e)) b ra rb i =
      RealRankingLossLayer.signedDistance a b ra rb i +
        (if static_cast_int ((1 / 80) * (ra.getD i 0 - rb.getD i 0)) ≠ 0 then e else -e) := by
  simp only [RealRankingLossLayer.signedDistance, getD_set, h, and_self, if_true]
  split_ifs <;> ring

theorem RealRanking_signedDistance_set_b (a b ra rb : List ℚ) (i : Nat) (e : ℚ)
    (h : i < b.length) :
    RealRankingLossLayer.signedDistance a (b.set i (b.getD i 0 + e)) ra rb i =
      RealRankingLossLayer.signedDistance a b ra rb i +
        (if static_cast_int ((1 / 80) * (ra.getD i 0 - rb.getD i 0)) ≠ 0 then -e else e) := by
  simp only [RealRankingLossLayer.signedDistance, getD_set, h, and_self, if_true]
  split_ifs <;> ring

/-! ## Forward contracts -/

set_option linter.unusedVariables false

/-- C1: `RankingLossLayer::Forward_cpu` on four inputs of length `N ≥ 1` caches
`Difference[i] = ScoreA[i] - ScoreB[i]`, caches `SignedDistance[i]` equal to
`Difference[i]` when `RefA[i] > RefB[i] + Margin`, to `-Difference[i]` when otherwise
`RefA[i] < RefB[i] - Margin` and to `0` otherwise, and returns
`Loss = (1/N) * Σ max (Margin - SignedDistance[i]) 0`; on the worked example
(`ScoreA = [1,0]`, `ScoreB = [0,0]`, `RefA = [1,0]`, `RefB = [0,1]`, `Margin = 3/10`) the
loss is `3/20`. -/
theorem Ranking_Forward_cpu_spec (N : Nat) (hN : 1 ≤ N) (L : RankingLossLayer)
    (b0 b1 b2 b3 t : Blob) (ts : List Blob)
    (h0 : b0.IsVec N) (h1 : b1.IsVec N) (h2 : b2.IsVec N) (h3 : b3.IsVec N)
    (hd : L.diff_.length = N) (hm : L.dist_mine_.length = N) (ht : 0 < t.data.length) :
    (∀ i, i < N → (L.Forward_cpu [b0, b1, b2, b3] (t :: ts)).1.diff_.getD i 0 =
        b0.data.getD i 0 - b1.data.getD i 0) ∧
    (∀ i, i < N → (L.Forward_cpu [b0, b1, b2, b3] (t :: ts)).1.dist_mine_.getD i 0 =
        if b2.data.getD i 0 > b3.data.getD i 0 + L.margin then
          (L.Forward_cpu [b0, b1, b2, b3] (t :: ts)).1.diff_.getD i 0
        else if b2.data.getD i 0 < b3.data.getD i 0 - L.margin then
          -((L.Forward_cpu [b0, b1, b2, b3] (t :: ts)).1.diff_.getD i 0)
        else 0) ∧
    lossOf (L.Forward_cpu [b0, b1, b2, b3] (t :: ts)).2 =
      (1 / (N : ℚ)) * ∑ i in Finset.range N,
        max (L.margin - (L.Forward_cpu [b0, b1, b2, b3] (t :: ts)).1.dist_mine_.getD i 0) 0 ∧
    lossOf (RankingLossLayer.Forward_cpu ⟨3 / 10, [0, 0], [0, 0]⟩
      [vecBlob [1, 0] [0, 0], vecBlob [0, 0] [0, 0], vecBlob [1, 0] [0, 0],
        vecBlob [0, 1] [0, 0]] [⟨1, 1, 1, 1, [0], [1]⟩]).2 = 3 / 20 := by
  obtain ⟨hD, hS, hLoss⟩ :=
    Ranking_Forward_cpu_closed N L b0 b1 b2 b3 t ts h0 hd hm ht
  refine ⟨hD, ?_, ?_, ?_⟩
  · intro i hi
    rw [hS i hi, hD i hi]
    rfl
  · rw [hLoss, one_div, inv_mul_eq_div]
    congr 1
    apply Finset.sum_congr rfl
    intro i hi
    rw [hS i (Finset.mem_range.mp hi)]
  · norm_num [lossOf, RankingLossLayer.Forward_cpu, RankingLossLayer.forwardBody, forLoop,
      caffe_sub, vecBlob, Blob.count, List.range_succ]

/-- Instance of C1 on the worked example of the specification (`N = 2`). -/
theorem Ranking_Forward_cpu_spec_witness :
    lossOf (RankingLossLayer.Forward_cpu ⟨3 / 10, [0, 0], [0, 0]⟩
      [vecBlob [1, 0] [0, 0], vecBlob [0, 0] [0, 0], vecBlob [1, 0] [0, 0],
        vecBlob [0, 1] [0, 0]] [⟨1, 1, 1, 1, [0], [1]⟩]).2 =
      (1 / ((2 : Nat) : ℚ)) * ∑ i in Finset.range 2,
        max ((3 / 10 : ℚ) - (RankingLossLayer.Forward_cpu ⟨3 / 10, [0, 0], [0, 0]⟩
          [vecBlob [1, 0] [0, 0], vecBlob [0, 0] [0, 0], vecBlob [1, 0] [0, 0],
            vecBlob [0, 1] [0, 0]] [⟨1, 1, 1, 1, [0], [1]⟩]).1.dist_mine_.getD i 0) 0 :=
  (Ranking_Forward_cpu_spec 2 (by decide) ⟨3 / 10, [0, 0], [0, 0]⟩
    (vecBlob [1, 0] [0, 0]) (vecBlob [0, 0] [0, 0]) (vecBlob [1, 0] [0, 0])
    (vecBlob [0, 1] [0, 0]) ⟨1, 1, 1, 1, [0], [1]⟩ []
    (by decide) (by decide) (by decide) (by decide) rfl rfl (by decide)).2.2.1

/-- C2: `RealRankingLossLayer::Forward_cpu` on four inputs of length `N ≥ 1`, with
`Rescaled[i] = (1/80) * (RefA[i] - RefB[i])` and `Difference[i] = ScoreA[i] - ScoreB[i]`,
caches `SignedDistance[i] = Difference[i]` when the truncation of `Rescaled[i]` is nonzero
and `-Difference[i]` otherwise, and returns
`Loss = (1/N) * Σ max (Margin - SignedDistance[i]) 0`. -/
theorem RealRanking_Forward_cpu_spec (N : Nat) (hN : 1 ≤ N) (L : RealRankingLossLayer)
    (b0 b1 b2 b3 t : Blob) (ts : List Blob)
    (h0 : b0.IsVec N) (h1 : b1.IsVec N) (h2 : b2.IsVec N) (h3 : b3.IsVec N)
    (hd : L.diff_.length = N) (hm : L.dist_mine_.length = N)
    (hd2 : L.diff2_.length = N) (hr : L.rescaled_.length = N) (ht : 0 < t.data.length) :
    (∀ i, i < N → (L.Forward_cpu [b0, b1, b2, b3] (t :: ts)).1.diff_.getD i 0 =
        b0.data.getD i 0 - b1.data.getD i 0) ∧
    (∀ i, i < N → (L.Forward_cpu [b0, b1, b2, b3] (t :: ts)).1.rescaled_.getD i 0 =
        (1 / 80) * (b2.data.getD i 0 - b3.data.getD i 0)) ∧
    (∀ i, i < N → (L.Forward_cpu [b0, b1, b2, b3] (t :: ts)).1.dist_mine_.getD i 0 =
        if static_cast_int ((1 / 80) * (b2.data.getD i 0 - b3.data.getD i 0)) ≠ 0 then
          (L.Forward_cpu [b0, b1, b2, b3] (t :: ts)).1.diff_.getD i 0
        else -((L.Forward_cpu [b0, b1, b2, b3] (t :: ts)).1.diff_.getD i 0)) ∧
    (∀ i, i < N →
      (L.Forward_cpu [b0, b1, b2, b3] (t :: ts)).1.dist_mine_.getD i 0 =
          (L.Forward_cpu [b0, b1, b2, b3] (t :: ts)).1.diff_.getD i 0 ∨
        (L.Forward_cpu [b0, b1, b2, b3] (t :: ts)).1.dist_mine_.getD i 0 =
          -((L.Forward_cpu [b0, b1, b2, b3] (t :: ts)).1.diff_.getD i 0)) ∧
    lossOf (L.Forward_cpu [b0, b1, b2, b3] (t :: ts)).2 =
      (1 / (N : ℚ)) * ∑ i in Finset.range N,
        max (L.margin - (L.Forward_cpu [b0, b1, b2, b3] (t :: ts)).1.dist_mine_.getD i 0) 0 := by
  obtain ⟨hD, hR, hS, hLoss⟩ :=
    RealRanking_Forward_cpu_closed N L b0 b1 b2 b3 t ts h0 hd hm hd2 hr ht
  have hS' : ∀ i, i < N → (L.Forward_cpu [b0, b1, b2, b3] (t :: ts)).1.dist_mine_.getD i 0 =
      if static_cast_int ((1 / 80) * (b2.data.getD i 0 - b3.data.getD i 0)) ≠ 0 then
        (L.Forward_cpu [b0, b1, b2, b3] (t :: ts)).1.diff_.getD i 0
      else -((L.Forward_cpu [b0, b1, b2, b3] (t :: ts)).1.diff_.getD i 0) := by
    intro i hi
    rw [hS i hi, hD i hi]
    rfl
  refine ⟨hD, hR, hS', ?_, ?_⟩
  · intro i hi
    rw [hS' i hi]
    split_ifs
    · exact Or.inl rfl
    · exact Or.inr rfl
  · rw [hLoss, one_div, inv_mul_eq_div]
    congr 1
    apply Finset.sum_congr rfl
    intro i hi
    rw [hS i (Finset.mem_range.mp hi)]

/-- Instance of C2 with one pair on each side of the truncation test
(`RefA - RefB = 160` and `RefA - RefB = 40`). -/
theorem RealRanking_Forward_cpu_spec_witness :
    lossOf (RealRankingLossLayer.Forward_cpu ⟨3 / 10, [0, 0], [0, 0], [0, 0], [0, 0]⟩
      [vecBlob [1, 2] [0, 0], vecBlob [0, 0] [0, 0], vecBlob [160, 40] [0, 0],
        vecBlob [0, 0] [0, 0]] [⟨1, 1, 1, 1, [0], [1]⟩]).2 =
      (1 / ((2 : Nat) : ℚ)) * ∑ i in Finset.range 2,
        max ((3 / 10 : ℚ) -
          (RealRankingLossLayer.Forward_cpu ⟨3 / 10, [0, 0], [0, 0], [0, 0], [0, 0]⟩
            [vecBlob [1, 2] [0, 0], vecBlob [0, 0] [0, 0], vecBlob [160, 40] [0, 0],
              vecBlob [0, 0] [0, 0]] [⟨1, 1, 1, 1, [0], [1]⟩]).1.dist_mine_.getD i 0) 0 :=
  (RealRanking_Forward_cpu_spec 2 (by decide) ⟨3 / 10, [0, 0], [0, 0], [0, 0], [0, 0]⟩
    (vecBlob [1, 2] [0, 0]) (vecBlob [0, 0] [0, 0]) (vecBlob [160, 40] [0, 0])
    (vecBlob [0, 0] [0, 0]) ⟨1, 1, 1, 1, [0], [1]⟩ []
    (by decide) (by decide) (by decide) (by decide) rfl rfl rfl rfl (by decide)).2.2.2.2

/-! ## Backward contracts of RankingLossLayer -/

/-- C4 (evaluation of the code at a failing input): with `N = 1`, `Margin = 3/10`,
`lambda = 1`, `ScoreA = ScoreB = [0]`, `RefA = [1]`, `RefB = [0]` and both gradients
requested, `RankingLossLayer::Backward_cpu` stores `GradA[0] = -1` and `GradB[0] = -1`, so
`GradA[0] ≠ -GradB[0]`. -/
theorem Ranking_Backward_cpu_same_sign :
    gradOf ((RankingLossLayer.Forward_cpu ⟨3 / 10, [0], [0]⟩
        [vecBlob [0] [0], vecBlob [0] [0], vecBlob [1] [0], vecBlob [0] [0]]
        [⟨1, 1, 1, 1, [0], [1]⟩]).1.Backward_cpu [⟨1, 1, 1, 1, [0], [1]⟩] [true, true]
        [vecBlob [0] [0], vecBlob [0] [0], vecBlob [1] [0], vecBlob [0] [0]]) 0 0 = -1 ∧
    gradOf ((RankingLossLayer.Forward_cpu ⟨3 / 10, [0], [0]⟩
        [vecBlob [0] [0], vecBlob [0] [0], vecBlob [1] [0], vecBlob [0] [0]]
        [⟨1, 1, 1, 1, [0], [1]⟩]).1.Backward_cpu [⟨1, 1, 1, 1, [0], [1]⟩] [true, true]
        [vecBlob [0] [0], vecBlob [0] [0], vecBlob [1] [0], vecBlob [0] [0]]) 1 0 = -1 ∧
    gradOf ((RankingLossLayer.Forward_cpu ⟨3 / 10, [0], [0]⟩
        [vecBlob [0] [0], vecBlob [0] [0], vecBlob [1] [0], vecBlob [0] [0]]
        [⟨1, 1, 1, 1, [0], [1]⟩]).1.Backward_cpu [⟨1, 1, 1, 1, [0], [1]⟩] [true, true]
        [vecBlob [0] [0], vecBlob [0] [0], vecBlob [1] [0], vecBlob [0] [0]]) 0 0 ≠
      -gradOf ((RankingLossLayer.Forward_cpu ⟨3 / 10, [0], [0]⟩
        [vecBlob [0] [0], vecBlob [0] [0], vecBlob [1] [0], vecBlob [0] [0]]
        [⟨1, 1, 1, 1, [0], [1]⟩]).1.Backward_cpu [⟨1, 1, 1, 1, [0], [1]⟩] [true, true]
        [vecBlob [0] [0], vecBlob [0] [0], vecBlob [1] [0], vecBlob [0] [0]]) 1 0 := by
  norm_num [gradOf, RankingLossLayer.Backward_cpu, RankingLossLayer.backwardBody,
    RankingLossLayer.Forward_cpu, RankingLossLayer.forwardBody, forLoop, caffe_sub, caffe_set,
    vecBlob, Blob.count, List.range_succ]

/-- C5 (evaluation of the code at a failing input): with `N = 1`, `Margin = 3/10`,
`lambda = 1`, `ScoreA = ScoreB = [0]`, `RefA = [0]`, `RefB = [1]`, the hinge of example `0`
is active (`Margin - SignedDistance[0] = 3/10`); replacing `ScoreA[0]` by `ScoreA[0] + 1/10`
raises the forward loss by `1/10`, while `eps * GradA[0] = -1/10`. -/
theorem Ranking_Backward_cpu_not_gradient :
    (3 / 10 : ℚ) - (RankingLossLayer.Forward_cpu ⟨3 / 10, [0], [0]⟩
        [vecBlob [0] [0], vecBlob [0] [0], vecBlob [0] [0], vecBlob [1] [0]]
        [⟨1, 1, 1, 1, [0], [1]⟩]).1.dist_mine_.getD 0 0 = 3 / 10 ∧
    lossOf (RankingLossLayer.Forward_cpu ⟨3 / 10, [0], [0]⟩
        [vecBlob [0 + 1 / 10] [0], vecBlob [0] [0], vecBlob [0] [0], vecBlob [1] [0]]
        [⟨1, 1, 1, 1, [0], [1]⟩]).2 -
      lossOf (RankingLossLayer.Forward_cpu ⟨3 / 10, [0], [0]⟩
        [vecBlob [0] [0], vecBlob [0] [0], vecBlob [0] [0], vecBlob [1] [0]]
        [⟨1, 1, 1, 1, [0], [1]⟩]).2 = 1 / 10 ∧
    (1 / 10 : ℚ) * gradOf ((RankingLossLayer.Forward_cpu ⟨3 / 10, [0], [0]⟩
        [vecBlob [0] [0], vecBlob [0] [0], vecBlob [0] [0], vecBlob [1] [0]]
        [⟨1, 1, 1, 1, [0], [1]⟩]).1.Backward_cpu [⟨1, 1, 1, 1, [0], [1]⟩] [true, true]
        [vecBlob [0] [0], vecBlob [0] [0], vecBlob [0] [0], vecBlob [1] [0]]) 0 0 = -(1 / 10) := by
  norm_num [gradOf, lossOf, RankingLossLayer.Backward_cpu, RankingLossLayer.backwardBody,
    RankingLossLayer.Forward_cpu, RankingLossLayer.forwardBody, forLoop, caffe_sub, caffe_set,
    vecBlob, Blob.count, List.range_succ]

/-! ## Backward contracts of RealRankingLossLayer -/

/-- C7: when both gradients are requested, for every example `i` whose hinge is active
(`Margin - SignedDistance[i] > 0`), `RealRankingLossLayer::Backward_cpu` stores
`GradA[i] = -GradB[i]`. -/
theorem RealRanking_Backward_cpu_antisymmetric (N : Nat) (hN : 1 ≤ N)
    (L : RealRankingLossLayer) (b0 b1 b2 b3 t : Blob) (ts topB : List Blob) (pd : List Bool)
    (h0 : b0.IsVec N) (h1 : b1.IsVec N) (h2 : b2.IsVec N) (h3 : b3.IsVec N)
    (hd : L.diff_.length = N) (hm : L.dist_mine_.length = N)
    (hd2 : L.diff2_.length = N) (hr : L.rescaled_.length = N) (ht : 0 < t.data.length)
    (hpA : pd.getD 0 false = true) (hpB : pd.getD 1 false = true) (i : Nat) (hi : i < N)
    (hact : L.margin - (L.Forward_cpu [b0, b1, b2, b3] (t :: ts)).1.dist_mine_.getD i 0 > 0) :
    gradOf ((L.Forward_cpu [b0, b1, b2, b3] (t :: ts)).1.Backward_cpu topB pd
        [b0, b1, b2, b3]) 0 i =
      -gradOf ((L.Forward_cpu [b0, b1, b2, b3] (t :: ts)).1.Backward_cpu topB pd
        [b0, b1, b2, b3]) 1 i := by
  rw [RealRanking_gradOf_Backward_cpu N _ topB pd b0 b1 b2 b3 h0 h1 0 (by decide) hpA i hi,
    RealRanking_gradOf_Backward_cpu N _ topB pd b0 b1 b2 b3 h0 h1 1 (by decide) hpB i hi]
  unfold RealRankingLossLayer.gradValue
  simp only [if_true, one_ne_zero, if_false]
  split_ifs <;> ring

/-- Instance of C7: one pair with an active hinge and both gradients requested. -/
theorem RealRanking_Backward_cpu_antisymmetric_witness :
    gradOf ((RealRankingLossLayer.Forward_cpu ⟨3 / 10, [0], [0], [0], [0]⟩
        [vecBlob [0] [5], vecBlob [0] [5], vecBlob [160] [0], vecBlob [0] [0]]
        [⟨1, 1, 1, 1, [0], [1]⟩]).1.Backward_cpu [⟨1, 1, 1, 1, [0], [1]⟩] [true, true]
        [vecBlob [0] [5], vecBlob [0] [5], vecBlob [160] [0], vecBlob [0] [0]]) 0 0 =
      -gradOf ((RealRankingLossLayer.Forward_cpu ⟨3 / 10, [0], [0], [0], [0]⟩
        [vecBlob [0] [5], vecBlob [0] [5], vecBlob [160] [0], vecBlob [0] [0]]
        [⟨1, 1, 1, 1, [0], [1]⟩]).1.Backward_cpu [⟨1, 1, 1, 1, [0], [1]⟩] [true, true]
        [vecBlob [0] [5], vecBlob [0] [5], vecBlob [160] [0], vecBlob [0] [0]]) 1 0 :=
  RealRanking_Backward_cpu_antisymmetric 1 (by decide) ⟨3 / 10, [0], [0], [0], [0]⟩
    (vecBlob [0] [5]) (vecBlob [0] [5]) (vecBlob [160] [0]) (vecBlob [0] [0])
    ⟨1, 1, 1, 1, [0], [1]⟩ [] [⟨1, 1, 1, 1, [0], [1]⟩] [true, true]
    (by decide) (by decide) (by decide) (by decide) rfl rfl rfl rfl (by decide)
    rfl rfl 0 (by decide)
    (by norm_num [RealRankingLossLayer.Forward_cpu, RealRankingLossLayer.forwardBody, forLoop,
      caffe_sub, caffe_cpu_axpby, vecBlob, Blob.count, List.range_succ, static_cast_int])

/-- C8 (amended): over exact arithmetic, `RealRankingLossLayer::Backward_cpu` with
`lambda = 1` stores the gradient of the forward loss: for every example `i` whose hinge is
strictly active and every `eps` with `|eps| < Margin - SignedDistance[i]`, the forward loss with `ScoreA[i]` replaced by
`ScoreA[i] + eps` minus the original loss equals `eps * GradA[i]`, and the forward loss
with `ScoreB[i]` replaced by `ScoreB[i] + eps` minus the original loss equals
`eps * GradB[i]`. -/
theorem RealRanking_Backward_cpu_is_gradient (N : Nat) (hN : 1 ≤ N)
    (L : RealRankingLossLayer) (b0 b1 b2 b3 t : Blob) (ts topB : List Blob) (pd : List Bool)
    (h0 : b0.IsVec N) (h1 : b1.IsVec N) (h2 : b2.IsVec N) (h3 : b3.IsVec N)
    (hd : L.diff_.length = N) (hm : L.dist_mine_.length = N)
    (hd2 : L.diff2_.length = N) (hr : L.rescaled_.length = N) (ht : 0 < t.data.length)
    (hlam : lambdaOf topB = 1)
    (hpA : pd.getD 0 false = true) (hpB : pd.getD 1 false = true) (i : Nat) (hi : i < N)
    (eps : ℚ)
    (hact : L.margin - (L.Forward_cpu [b0, b1, b2, b3] (t :: ts)).1.dist_mine_.getD i 0 > 0)
    (heps : |eps| <
      L.margin - (L.Forward_cpu [b0, b1, b2, b3] (t :: ts)).1.dist_mine_.getD i 0) :
    lossOf (L.Forward_cpu
        [{ b0 with data := b0.data.set i (b0.data.getD i 0 + eps) }, b1, b2, b3] (t :: ts)).2 -
      lossOf (L.Forward_cpu [b0, b1, b2, b3] (t :: ts)).2 =
        eps * gradOf ((L.Forward_cpu [b0, b1, b2, b3] (t :: ts)).1.Backward_cpu topB pd
          [b0, b1, b2, b3]) 0 i ∧
    lossOf (L.Forward_cpu
        [b0, { b1 with data := b1.data.set i (b1.data.getD i 0 + eps) }, b2, b3] (t :: ts)).2 -
      lossOf (L.Forward_cpu [b0, b1, b2, b3] (t :: ts)).2 =
        eps * gradOf ((L.Forward_cpu [b0, b1, b2, b3] (t :: ts)).1.Backward_cpu topB pd
          [b0, b1, b2, b3]) 1 i := by
  obtain ⟨-, hR, hS, hLoss⟩ :=
    RealRanking_Forward_cpu_closed N L b0 b1 b2 b3 t ts h0 hd hm hd2 hr ht
  obtain ⟨-, -, -, hLossA⟩ :=
    RealRanking_Forward_cpu_closed N L
      { b0 with data := b0.data.set i (b0.data.getD i 0 + eps) } b1 b2 b3 t ts
      (h0.set_data i _) hd hm hd2 hr ht
  obtain ⟨-, -, -, hLossB⟩ :=
    RealRanking_Forward_cpu_closed N L b0
      { b1 with data := b1.data.set i (b1.data.getD i 0 + eps) } b2 b3 t ts
      h0 hd hm hd2 hr ht
  have hla : i < b0.data.length := by rw [h0.2.2.2.2.1]; exact hi
  have hlb : i < b1.data.length := by rw [h1.2.2.2.2.1]; exact hi
  have hN0 : (N : ℚ) ≠ 0 := by
    have : 0 < N := hN
    exact_mod_cast this.ne'
  rw [hS i hi] at hact heps
  rw [RealRanking_gradOf_Backward_cpu N _ topB pd b0 b1 b2 b3 h0 h1 0 (by decide) hpA i hi,
    RealRanking_gradOf_Backward_cpu N _ topB pd b0 b1 b2 b3 h0 h1 1 (by decide) hpB i hi,
    hLoss, hLossA, hLossB]
  unfold RealRankingLossLayer.gradValue
  have hmarg : (L.Forward_cpu [b0, b1, b2, b3] (t :: ts)).1.margin = L.margin := rfl
  have hlam' : (topB.getD 0 default).diff.getD 0 0 = 1 := hlam
  have e0 : (if (0 : Nat) = 0 then (1 : ℚ) else -1) = 1 := rfl
  have e1 : (if (1 : Nat) = 0 then (1 : ℚ) else -1) = -1 := rfl
  simp only [hR i hi, hS i hi, hmarg, if_pos hact, hlam', e0, e1]
  by_cases hc : static_cast_int ((1 / 80) * (b2.data.getD i 0 - b3.data.getD i 0)) ≠ 0
  · simp only [if_pos hc]
    constructor
    · rw [hinge_sum_perturb N L.margin _ _ i hi eps
        (fun j hji => RealRanking_signedDistance_set_a_ne _ _ _ _ i j _ hji)
        (by rw [RealRanking_signedDistance_set_a _ _ _ _ i eps hla, if_pos hc]) heps]
      field_simp
    · rw [hinge_sum_perturb N L.margin _ _ i hi (-eps)
        (fun j hji => RealRanking_signedDistance_set_b_ne _ _ _ _ i j _ hji)
        (by rw [RealRanking_signedDistance_set_b _ _ _ _ i eps hlb, if_pos hc])
        (by rwa [abs_neg])]
      field_simp
  · simp only [if_neg hc]
    constructor
    · rw [hinge_sum_perturb N L.margin _ _ i hi (-eps)
        (fun j hji => RealRanking_signedDistance_set_a_ne _ _ _ _ i j _ hji)
        (by rw [RealRanking_signedDistance_set_a _ _ _ _ i eps hla, if_neg hc])
        (by rwa [abs_neg])]
      field_simp
    · rw [hinge_sum_perturb N L.margin _ _ i hi eps
        (fun j hji => RealRanking_signedDistance_set_b_ne _ _ _ _ i j _ hji)
        (by rw [RealRanking_signedDistance_set_b _ _ _ _ i eps hlb, if_neg hc]) heps]
      field_simp

/-- Instance of C8: one pair with an active hinge, perturbed by `eps = 1/10`. -/
theorem RealRanking_Backward_cpu_is_gradient_witness :
    lossOf (RealRankingLossLayer.Forward_cpu ⟨3 / 10, [0], [0], [0], [0]⟩
        [{ vecBlob [0] [5] with
            data := (vecBlob [0] [5]).data.set 0 ((vecBlob [0] [5]).data.getD 0 0 + 1 / 10) },
          vecBlob [0] [5], vecBlob [160] [0], vecBlob [0] [0]]
        [⟨1, 1, 1, 1, [0], [1]⟩]).2 -
      lossOf (RealRankingLossLayer.Forward_cpu ⟨3 / 10, [0], [0], [0], [0]⟩
        [vecBlob [0] [5], vecBlob [0] [5], vecBlob [160] [0], vecBlob [0] [0]]
        [⟨1, 1, 1, 1, [0], [1]⟩]).2 =
        1 / 10 * gradOf ((RealRankingLossLayer.Forward_cpu ⟨3 / 10, [0], [0], [0], [0]⟩
        [vecBlob [0] [5], vecBlob [0] [5], vecBlob [160] [0], vecBlob [0] [0]]
        [⟨1, 1, 1, 1, [0], [1]⟩]).1.Backward_cpu [⟨1, 1, 1, 1, [0], [1]⟩] [true, true]
          [vecBlob [0] [5], vecBlob [0] [5], vecBlob [160] [0], vecBlob [0] [0]]) 0 0 ∧
    lossOf (RealRankingLossLayer.Forward_cpu ⟨3 / 10, [0], [0], [0], [0]⟩
        [vecBlob [0] [5],
          { vecBlob [0] [5] with
            data := (vecBlob [0] [5]).data.set 0 ((vecBlob [0] [5]).data.getD 0 0 + 1 / 10) },
          vecBlob [160] [0], vecBlob [0] [0]]
        [⟨1, 1, 1, 1, [0], [1]⟩]).2 -
      lossOf (RealRankingLossLayer.Forward_cpu ⟨3 / 10, [0], [0], [0], [0]⟩
        [vecBlob [0] [5], vecBlob [0] [5], vecBlob [160] [0], vecBlob [0] [0]]
        [⟨1, 1, 1, 1, [0], [1]⟩]).2 =
        1 / 10 * gradOf ((RealRankingLossLayer.Forward_cpu ⟨3 / 10, [0], [0], [0], [0]⟩
        [vecBlob [0] [5], vecBlob [0] [5], vecBlob [160] [0], vecBlob [0] [0]]
        [⟨1, 1, 1, 1, [0], [1]⟩]).1.Backward_cpu [⟨1, 1, 1, 1, [0], [1]⟩] [true, true]
          [vecBlob [0] [5], vecBlob [0] [5], vecBlob [160] [0], vecBlob [0] [0]]) 1 0 :=
  RealRanking_Backward_cpu_is_gradient 1 (by decide) ⟨3 / 10, [0], [0], [0], [0]⟩
    (vecBlob [0] [5]) (vecBlob [0] [5]) (vecBlob [160] [0]) (vecBlob [0] [0])
    ⟨1, 1, 1, 1, [0], [1]⟩ [] [⟨1, 1, 1, 1, [0], [1]⟩] [true, true]
    (by decide) (by decide) (by decide) (by decide) rfl rfl rfl rfl (by decide)
    rfl rfl rfl 0 (by decide) (1 / 10)
    (by norm_num [RealRankingLossLayer.Forward_cpu, RealRankingLossLayer.forwardBody, forLoop,
      caffe_sub, caffe_cpu_axpby, vecBlob, Blob.count, List.range_succ, static_cast_int])
    (by norm_num [RealRankingLossLayer.Forward_cpu, RealRankingLossLayer.forwardBody, forLoop,
      caffe_sub, caffe_cpu_axpby, vecBlob, Blob.count, List.range_succ, static_cast_int,
      abs_of_pos])

/-- C9 (evaluation of the code at a failing input): with `N = 1`, `ScoreA = [1]`,
`ScoreB = [0]`, `RefA = [0]`, `RefB = [80]`, the rescaled reference difference is
`(1/80) * (0 - 80) = -1 ≤ -1`, its truncation `-1` is nonzero, and
`RealRankingLossLayer::Forward_cpu` caches `SignedDistance[0] = 1 = Difference[0]`
(the branch of "A greater"), not `-Difference[0] = -1`. -/
theorem RealRanking_Forward_cpu_negative_truncation :
    (1 / 80 : ℚ) * ((0 : ℚ) - 80) ≤ -1 ∧
    static_cast_int ((1 / 80 : ℚ) * ((0 : ℚ) - 80)) = -1 ∧
    (RealRankingLossLayer.Forward_cpu ⟨3 / 10, [0], [0], [0], [0]⟩
      [vecBlob [1] [0], vecBlob [0] [0], vecBlob [0] [0], vecBlob [80] [0]]
      [⟨1, 1, 1, 1, [0], [1]⟩]).1.diff_.getD 0 0 = 1 ∧
    (RealRankingLossLayer.Forward_cpu ⟨3 / 10, [0], [0], [0], [0]⟩
      [vecBlob [1] [0], vecBlob [0] [0], vecBlob [0] [0], vecBlob [80] [0]]
      [⟨1, 1, 1, 1, [0], [1]⟩]).1.dist_mine_.getD 0 0 = 1 := by
  norm_num [RealRankingLossLayer.Forward_cpu, RealRankingLossLayer.forwardBody, forLoop,
    caffe_sub, caffe_cpu_axpby, vecBlob, Blob.count, List.range_succ, static_cast_int]

/-! ## Sign of the loss -/

theorem hinge_sum_div_nonneg (N : Nat) (m : ℚ) (f : Nat → ℚ) :
    0 ≤ (∑ i in Finset.range N, max (m - f i) 0) / (N : ℚ) :=
  div_nonneg (Finset.sum_nonneg (fun _ _ => le_max_right _ _)) (Nat.cast_nonneg N)

/-- C10: for every `N ≥ 1`, every margin (negative ones included) and all inputs of length
`N`, the loss returned by `RankingLossLayer::Forward_cpu` is `≥ 0` and the loss returned by
`RealRankingLossLayer::Forward_cpu` is `≥ 0`. -/
theorem Forward_cpu_loss_nonneg (N : Nat) (hN : 1 ≤ N) (L : RankingLossLayer)
    (R : RealRankingLossLayer) (b0 b1 b2 b3 t : Blob) (ts : List Blob)
    (h0 : b0.IsVec N) (h1 : b1.IsVec N) (h2 : b2.IsVec N) (h3 : b3.IsVec N)
    (hd : L.diff_.length = N) (hm : L.dist_mine_.length = N)
    (hRd : R.diff_.length = N) (hRm : R.dist_mine_.length = N)
    (hRd2 : R.diff2_.length = N) (hRr : R.rescaled_.length = N) (ht : 0 < t.data.length) :
    0 ≤ lossOf (L.Forward_cpu [b0, b1, b2, b3] (t :: ts)).2 ∧
    0 ≤ lossOf (R.Forward_cpu [b0, b1, b2, b3] (t :: ts)).2 := by
  obtain ⟨-, -, hL⟩ := Ranking_Forward_cpu_closed N L b0 b1 b2 b3 t ts h0 hd hm ht
  obtain ⟨-, -, -, hR⟩ :=
    RealRanking_Forward_cpu_closed N R b0 b1 b2 b3 t ts h0 hRd hRm hRd2 hRr ht
  rw [hL, hR]
  exact ⟨hinge_sum_div_nonneg N _ _, hinge_sum_div_nonneg N _ _⟩

/-- Instance of C10 with the negative margin `-1`. -/
theorem Forward_cpu_loss_nonneg_witness :
    0 ≤ lossOf (RankingLossLayer.Forward_cpu ⟨-1, [0, 0], [0, 0]⟩
      [vecBlob [1, 0] [0, 0], vecBlob [0, 0] [0, 0], vecBlob [1, 0] [0, 0],
        vecBlob [0, 1] [0, 0]] [⟨1, 1, 1, 1, [0], [1]⟩]).2 ∧
    0 ≤ lossOf (RealRankingLossLayer.Forward_cpu ⟨-1, [0, 0], [0, 0], [0, 0], [0, 0]⟩
      [vecBlob [1, 0] [0, 0], vecBlob [0, 0] [0, 0], vecBlob [1, 0] [0, 0],
        vecBlob [0, 1] [0, 0]] [⟨1, 1, 1, 1, [0], [1]⟩]).2 :=
  Forward_cpu_loss_nonneg 2 (by decide) ⟨-1, [0, 0], [0, 0]⟩ ⟨-1, [0, 0], [0, 0], [0, 0], [0, 0]⟩
    (vecBlob [1, 0] [0, 0]) (vecBlob [0, 0] [0, 0]) (vecBlob [1, 0] [0, 0])
    (vecBlob [0, 1] [0, 0]) ⟨1, 1, 1, 1, [0], [1]⟩ []
    (by decide) (by decide) (by decide) (by decide) rfl rfl rfl rfl rfl rfl (by decide)

/-! ## Zero loss and the margin band of RankingLossLayer -/

/-- C11 (amended): over exact arithmetic, for `N ≥ 1` and inputs of length `N`, if the loss
returned by
`RankingLossLayer::Forward_cpu` is `0`, then `SignedDistance[i] ≥ Margin` for every
example `i < N`. -/
theorem Ranking_Forward_cpu_loss_zero (N : Nat) (hN : 1 ≤ N) (L : RankingLossLayer)
    (b0 b1 b2 b3 t : Blob) (ts : List Blob)
    (h0 : b0.IsVec N) (h1 : b1.IsVec N) (h2 : b2.IsVec N) (h3 : b3.IsVec N)
    (hd : L.diff_.length = N) (hm : L.dist_mine_.length = N) (ht : 0 < t.data.length)
    (hz : lossOf (L.Forward_cpu [b0, b1, b2, b3] (t :: ts)).2 = 0) :
    ∀ i, i < N → L.margin ≤ (L.Forward_cpu [b0, b1, b2, b3] (t :: ts)).1.dist_mine_.getD i 0 := by
  obtain ⟨-, hS, hL⟩ := Ranking_Forward_cpu_closed N L b0 b1 b2 b3 t ts h0 hd hm ht
  have hN0 : (N : ℚ) ≠ 0 := by
    have : 0 < N := hN
    exact_mod_cast this.ne'
  rw [hL, div_eq_zero_iff] at hz
  have hsum := hz.resolve_right hN0
  rw [Finset.sum_eq_zero_iff_of_nonneg (fun _ _ => le_max_right _ _)] at hsum
  intro i hi
  have hi0 := hsum i (Finset.mem_range.mpr hi)
  rw [hS i hi]
  have := max_eq_right_iff.mp hi0
  linarith

/-- Instance of C11: one pair whose signed distance `1` exceeds the margin `3/10`. -/
theorem Ranking_Forward_cpu_loss_zero_witness :
    (3 / 10 : ℚ) ≤ (RankingLossLayer.Forward_cpu ⟨3 / 10, [0], [0]⟩
      [vecBlob [1] [0], vecBlob [0] [0], vecBlob [1] [0], vecBlob [0] [0]]
      [⟨1, 1, 1, 1, [0], [1]⟩]).1.dist_mine_.getD 0 0 :=
  Ranking_Forward_cpu_loss_zero 1 (by decide) ⟨3 / 10, [0], [0]⟩
    (vecBlob [1] [0]) (vecBlob [0] [0]) (vecBlob [1] [0]) (vecBlob [0] [0])
    ⟨1, 1, 1, 1, [0], [1]⟩ [] (by decide) (by decide) (by decide) (by decide) rfl rfl
    (by decide)
    (by norm_num [lossOf, RankingLossLayer.Forward_cpu, RankingLossLayer.forwardBody, forLoop,
      caffe_sub, vecBlob, Blob.count, List.range_succ])
    0 (by decide)

/-- C12 (amended): over exact arithmetic, for `N ≥ 1` and inputs of length `N`, if
`|RefA[i] - RefB[i]| ≤ Margin` for every
example `i < N`, then the loss returned by `RankingLossLayer::Forward_cpu` equals `Margin`,
whatever the scores are. -/
theorem Ranking_Forward_cpu_margin_band (N : Nat) (hN : 1 ≤ N) (L : RankingLossLayer)
    (b0 b1 b2 b3 t : Blob) (ts : List Blob)
    (h0 : b0.IsVec N) (h1 : b1.IsVec N) (h2 : b2.IsVec N) (h3 : b3.IsVec N)
    (hd : L.diff_.length = N) (hm : L.dist_mine_.length = N) (ht : 0 < t.data.length)
    (href : ∀ i, i < N → |b2.data.getD i 0 - b3.data.getD i 0| ≤ L.margin) :
    lossOf (L.Forward_cpu [b0, b1, b2, b3] (t :: ts)).2 = L.margin := by
  obtain ⟨-, -, hL⟩ := Ranking_Forward_cpu_closed N L b0 b1 b2 b3 t ts h0 hd hm ht
  have hN0 : (N : ℚ) ≠ 0 := by
    have : 0 < N := hN
    exact_mod_cast this.ne'
  have hm0 : 0 ≤ L.margin := le_trans (abs_nonneg _) (href 0 hN)
  have hterm : ∀ i ∈ Finset.range N, max (L.margin -
      RankingLossLayer.signedDistance L.margin b0.data b1.data b2.data b3.data i) 0 =
        L.margin := by
    intro i hi
    obtain ⟨hlo, hhi⟩ := abs_le.mp (href i (Finset.mem_range.mp hi))
    unfold RankingLossLayer.signedDistance
    rw [if_neg (by intro h; linarith), if_neg (by intro h; linarith), sub_zero,
      max_eq_left hm0]
  rw [hL, Finset.sum_congr rfl hterm, Finset.sum_const, Finset.card_range, nsmul_eq_mul]
  field_simp

/-- Instance of C12: two pairs whose references differ by `0` and by `1/5`, margin
`3/10`. -/
theorem Ranking_Forward_cpu_margin_band_witness :
    lossOf (RankingLossLayer.Forward_cpu ⟨3 / 10, [0, 0], [0, 0]⟩
      [vecBlob [7, -2] [0, 0], vecBlob [1, 4] [0, 0], vecBlob [1, 0] [0, 0],
        vecBlob [1, 1 / 5] [0, 0]] [⟨1, 1, 1, 1, [0], [1]⟩]).2 = 3 / 10 :=
  Ranking_Forward_cpu_margin_band 2 (by decide) ⟨3 / 10, [0, 0], [0, 0]⟩
    (vecBlob [7, -2] [0, 0]) (vecBlob [1, 4] [0, 0]) (vecBlob [1, 0] [0, 0])
    (vecBlob [1, 1 / 5] [0, 0]) ⟨1, 1, 1, 1, [0], [1]⟩ []
    (by decide) (by decide) (by decide) (by decide) rfl rfl (by decide)
    (by
      intro i hi
      interval_cases i <;> norm_num [vecBlob, abs_le])

/-! ## Capability declaration and set-up -/

/-- C13 (evaluation of the code): for both layers `AllowForceBackward` returns `true` for
the score indices `0` and `1` and `false` for index `2`, but it returns `true` for the
reference index `3`. -/
theorem AllowForceBackward_index_three :
    RankingLossLayer.AllowForceBackward 3 = true ∧
    RealRankingLossLayer.AllowForceBackward 3 = true ∧
    RankingLossLayer.AllowForceBackward 2 = false ∧
    RealRankingLossLayer.AllowForceBackward 2 = false ∧
    RankingLossLayer.AllowForceBackward 0 = true ∧
    RankingLossLayer.AllowForceBackward 1 = true ∧
    RealRankingLossLayer.AllowForceBackward 0 = true ∧
    RealRankingLossLayer.AllowForceBackward 1 = true := by
  decide

theorem CHECK_EQ_bind_isOk {β : Type} (a b : Nat) (k : Unit → Except Fatal β) :
    (bind (CHECK_EQ a b) k).isOk = true ↔ a = b ∧ (k ()).isOk = true := by
  unfold CHECK_EQ
  split_ifs with h
  · simp [h, bind, Except.bind]
  · simp [h, bind, Except.bind, Except.isOk, Except.toBool]

theorem unit_bind_isOk {β : Type} (o : Except Fatal Unit) (k : Unit → Except Fatal β) :
    (bind o k).isOk = true ↔ o.isOk = true ∧ (k ()).isOk = true := by
  cases o <;> simp [bind, Except.bind, Except.isOk, Except.toBool]

theorem Reshape_length (buf : List ℚ) (count : Nat) : (Reshape buf count).length = count := by
  unfold Reshape
  split_ifs with h
  · simp [h]
  · simp

theorem Ranking_LayerSetUp_isOk (base : List Blob → List Blob → Except Fatal Unit)
    (L : RankingLossLayer) (b0 b1 b2 b3 : Blob) (top : List Blob) :
    (L.LayerSetUp base [b0, b1, b2, b3] top).isOk = true ↔
      (base [b0, b1, b2, b3] top).isOk = true ∧
      (b0.channels = 1 ∧ b0.height = 1 ∧ b0.width = 1) ∧
      (b1.channels = 1 ∧ b1.height = 1 ∧ b1.width = 1) ∧
      (b2.channels = 1 ∧ b2.height = 1 ∧ b2.width = 1) ∧
      (b3.channels = 1 ∧ b3.height = 1 ∧ b3.width = 1) := by
  unfold RankingLossLayer.LayerSetUp
  rw [unit_bind_isOk]
  simp only [CHECK_EQ_bind_isOk, List.getD_cons_zero, List.getD_cons_succ]
  simp only [pure, Except.pure, Except.isOk, Except.toBool, and_true, and_assoc]

theorem RealRanking_LayerSetUp_isOk (base : List Blob → List Blob → Except Fatal Unit)
    (L : RealRankingLossLayer) (b0 b1 b2 b3 : Blob) (top : List Blob) :
    (L.LayerSetUp base [b0, b1, b2, b3] top).isOk = true ↔
      (base [b0, b1, b2, b3] top).isOk = true ∧
      (b0.channels = 1 ∧ b0.height = 1 ∧ b0.width = 1) ∧
      (b1.channels = 1 ∧ b1.height = 1 ∧ b1.width = 1) ∧
      (b2.channels = 1 ∧ b2.height = 1 ∧ b2.width = 1) ∧
      (b3.channels = 1 ∧ b3.height = 1 ∧ b3.width = 1) := by
  unfold RealRankingLossLayer.LayerSetUp
  rw [unit_bind_isOk]
  simp only [CHECK_EQ_bind_isOk, List.getD_cons_zero, List.getD_cons_succ]
  simp only [pure, Except.pure, Except.isOk, Except.toBool, and_true]
  tauto

theorem isOk_of_eq_ok {α : Type} (x : Except Fatal α) (a : α) (h : x = .ok a) :
    x.isOk = true := by
  subst h
  rfl

theorem Ranking_LayerSetUp_result (base : List Blob → List Blob → Except Fatal Unit)
    (L M : RankingLossLayer) (b0 b1 b2 b3 : Blob) (top : List Blob)
    (h : L.LayerSetUp base [b0, b1, b2, b3] top = .ok M) :
    M.margin = L.margin ∧ M.diff_.length = b0.num ∧ M.dist_mine_.length = b0.num := by
  obtain ⟨hb, ⟨c0, e0, w0⟩, ⟨c1, e1, w1⟩, ⟨c2, e2, w2⟩, ⟨c3, e3, w3⟩⟩ :=
    (Ranking_LayerSetUp_isOk base L b0 b1 b2 b3 top).mp (isOk_of_eq_ok _ _ h)
  have hu : base [b0, b1, b2, b3] top = .ok () := by
    cases hx : base [b0, b1, b2, b3] top with
    | error e => rw [hx] at hb; exact absurd hb (by simp [Except.isOk, Except.toBool])
    | ok u => rfl
  simp only [RankingLossLayer.LayerSetUp, hu, CHECK_EQ, List.getD_cons_zero,
    List.getD_cons_succ, c0, e0, w0, c1, e1, w1, c2, e2, w2, c3, e3, w3, if_true,
    bind, Except.bind, pure, Except.pure, Except.ok.injEq, Nat.mul_one] at h
  subst h
  exact ⟨rfl, Reshape_length _ _, Reshape_length _ _⟩

theorem RealRanking_LayerSetUp_result (base : List Blob → List Blob → Except Fatal Unit)
    (L M : RealRankingLossLayer) (b0 b1 b2 b3 : Blob) (top : List Blob)
    (h : L.LayerSetUp base [b0, b1, b2, b3] top = .ok M) :
    M.margin = L.margin ∧ M.diff_.length = b0.num ∧ M.dist_mine_.length = b0.num ∧
      M.diff2_.length = b0.num ∧ M.rescaled_.length = b0.num := by
  obtain ⟨hb, ⟨c0, e0, w0⟩, ⟨c1, e1, w1⟩, ⟨c2, e2, w2⟩, ⟨c3, e3, w3⟩⟩ :=
    (RealRanking_LayerSetUp_isOk base L b0 b1 b2 b3 top).mp (isOk_of_eq_ok _ _ h)
  have hu : base [b0, b1, b2, b3] top = .ok () := by
    cases hx : base [b0, b1, b2, b3] top with
    | error e => rw [hx] at hb; exact absurd hb (by simp [Except.isOk, Except.toBool])
    | ok u => rfl
  simp only [RealRankingLossLayer.LayerSetUp, hu, CHECK_EQ, List.getD_cons_zero,
    List.getD_cons_succ, c0, e0, w0, c1, e1, w1, c2, e2, w2, c3, e3, w3, if_true,
    bind, Except.bind, pure, Except.pure, Except.ok.injEq, Nat.mul_one] at h
  subst h
  exact ⟨rfl, Reshape_length _ _, Reshape_length _ _, Reshape_length _ _, Reshape_length _ _⟩

/-- C14 (counterexample): with a base-class set-up that passes, `LayerSetUp` of both layers
succeeds on four inputs of shapes `1x1x1x1`, `2x1x1x1`, `3x1x1x1` and `4x1x1x1`, whose
batch sizes are pairwise different. -/
theorem LayerSetUp_accepts_unequal_batches :
    (RankingLossLayer.LayerSetUp (fun _ _ => .ok ()) ⟨3 / 10, [], []⟩
      [⟨1, 1, 1, 1, [0], [0]⟩, ⟨2, 1, 1, 1, [0, 0], [0, 0]⟩,
        ⟨3, 1, 1, 1, [0, 0, 0], [0, 0, 0]⟩, ⟨4, 1, 1, 1, [0, 0, 0, 0], [0, 0, 0, 0]⟩]
      []).isOk = true ∧
    (RealRankingLossLayer.LayerSetUp (fun _ _ => .ok ()) ⟨3 / 10, [], [], [], []⟩
      [⟨1, 1, 1, 1, [0], [0]⟩, ⟨2, 1, 1, 1, [0, 0], [0, 0]⟩,
        ⟨3, 1, 1, 1, [0, 0, 0], [0, 0, 0]⟩, ⟨4, 1, 1, 1, [0, 0, 0, 0], [0, 0, 0, 0]⟩]
      []).isOk = true := by
  constructor
  · rw [Ranking_LayerSetUp_isOk]
    decide
  · rw [RealRanking_LayerSetUp_isOk]
    decide

/-- C14 (amended): `LayerSetUp` of both layers fails when one of the four inputs has
channels, height or width different from `1`; when the base-class set-up passes it succeeds
exactly when all four inputs have channels, height and width `1`, whatever their batch
sizes are; on success the margin is kept and the internal buffers have the batch size of
the first input. -/
theorem LayerSetUp_checks_extents (base : List Blob → List Blob → Except Fatal Unit)
    (L : RankingLossLayer) (R : RealRankingLossLayer) (b0 b1 b2 b3 : Blob) (top : List Blob) :
    ((L.LayerSetUp base [b0, b1, b2, b3] top).isOk = true ↔
      (base [b0, b1, b2, b3] top).isOk = true ∧
      (b0.channels = 1 ∧ b0.height = 1 ∧ b0.width = 1) ∧
      (b1.channels = 1 ∧ b1.height = 1 ∧ b1.width = 1) ∧
      (b2.channels = 1 ∧ b2.height = 1 ∧ b2.width = 1) ∧
      (b3.channels = 1 ∧ b3.height = 1 ∧ b3.width = 1)) ∧
    ((R.LayerSetUp base [b0, b1, b2, b3] top).isOk = true ↔
      (base [b0, b1, b2, b3] top).isOk = true ∧
      (b0.channels = 1 ∧ b0.height = 1 ∧ b0.width = 1) ∧
      (b1.channels = 1 ∧ b1.height = 1 ∧ b1.width = 1) ∧
      (b2.channels = 1 ∧ b2.height = 1 ∧ b2.width = 1) ∧
      (b3.channels = 1 ∧ b3.height = 1 ∧ b3.width = 1)) ∧
    (∀ M, L.LayerSetUp base [b0, b1, b2, b3] top = .ok M →
      M.margin = L.margin ∧ M.diff_.length = b0.num ∧ M.dist_mine_.length = b0.num) ∧
    (∀ M, R.LayerSetUp base [b0, b1, b2, b3] top = .ok M →
      M.margin = R.margin ∧ M.diff_.length = b0.num ∧ M.dist_mine_.length = b0.num ∧
        M.diff2_.length = b0.num ∧ M.rescaled_.length = b0.num) :=
  ⟨Ranking_LayerSetUp_isOk base L b0 b1 b2 b3 top,
    RealRanking_LayerSetUp_isOk base R b0 b1 b2 b3 top,
    fun M h => Ranking_LayerSetUp_result base L M b0 b1 b2 b3 top h,
    fun M h => RealRanking_LayerSetUp_result base R M b0 b1 b2 b3 top h⟩

/-! ## The state produced by a forward pass -/

theorem storeLoop_succ (g : Nat → ℚ → ℚ) (n : Nat) (y : List ℚ) :
    storeLoop g (n + 1) y = (storeLoop g n y).set n (g n ((storeLoop g n y).getD n 0)) := by
  unfold storeLoop
  rw [forLoop_succ]

theorem storeLoop_congr (g k : Nat → ℚ → ℚ) (n : Nat) (y : List ℚ)
    (h : ∀ i, i < n → ∀ v, g i v = k i v) : storeLoop g n y = storeLoop k n y := by
  induction n with
  | zero => rfl
  | succ n ih =>
    rw [storeLoop_succ, storeLoop_succ, ih (fun i hi v => h i (by omega) v),
      h n (Nat.lt_succ_self n)]

theorem list_ext_getD (l r : List ℚ) (hlen : l.length = r.length)
    (h : ∀ i, i < l.length → l.getD i 0 = r.getD i 0) : l = r := by
  apply List.ext_getElem hlen
  intro i h1 h2
  have := h i h1
  rwa [List.getD_eq_getElem l 0 h1, List.getD_eq_getElem r 0 h2] at this

theorem storeLoop_of_length (f : Nat → ℚ) (n : Nat) (y z : List ℚ) (hy : y.length = n)
    (hz : z.length = n) :
    storeLoop (fun j _ => f j) n y = storeLoop (fun j _ => f j) n z := by
  apply list_ext_getD
  · rw [storeLoop_length, storeLoop_length, hy, hz]
  · intro i hi
    rw [storeLoop_length, hy] at hi
    rw [storeLoop_getD, storeLoop_getD, if_pos ⟨hi, by omega⟩, if_pos ⟨hi, by omega⟩]

theorem storeLoop_idem (f : Nat → ℚ) (n : Nat) (y : List ℚ) :
    storeLoop (fun j _ => f j) n (storeLoop (fun j _ => f j) n y) =
      storeLoop (fun j _ => f j) n y := by
  apply list_ext_getD
  · rw [storeLoop_length]
  · intro i _
    rw [storeLoop_getD, storeLoop_length]
    by_cases hc : i < n ∧ i < y.length
    · rw [if_pos hc, storeLoop_getD, if_pos hc]
    · rw [if_neg hc]

/-- The whole state after `RankingLossLayer::Forward_cpu`, written on the input vectors. -/
theorem Ranking_Forward_cpu_state (N : Nat) (L : RankingLossLayer) (b0 b1 b2 b3 t : Blob)
    (ts : List Blob) (h0 : b0.IsVec N) (hd : L.diff_.length = N)
    (hm : L.dist_mine_.length = N) :
    L.Forward_cpu [b0, b1, b2, b3] (t :: ts) =
      (⟨L.margin, storeLoop (fun i _ => b0.data.getD i 0 - b1.data.getD i 0) N L.diff_,
          storeLoop (fun j _ => RankingLossLayer.signedDistance L.margin b0.data b1.data
            b2.data b3.data j) N L.dist_mine_⟩,
        { t with
          data := t.data.set 0 ((∑ i in Finset.range N, max (L.margin -
            RankingLossLayer.signedDistance L.margin b0.data b1.data b2.data b3.data i) 0) /
              (N : ℚ)) } :: ts) := by
  have hc := h0.count_eq
  have hnum : b0.num = N := h0.1
  have hdiff : ∀ i, i < N → (caffe_sub N b0.data b1.data L.diff_).getD i 0 =
      b0.data.getD i 0 - b1.data.getD i 0 :=
    fun i hi => caffe_sub_getD N _ _ _ i hi (by omega)
  rw [Ranking_Forward_cpu_cons, hc, hnum, Ranking_forwardBody_eq,
    forLoop_hingeStep _ _ _ _ _ (by omega)]
  dsimp only
  have hsd : ∀ i, i < N →
      (if b2.data.getD i 0 > b3.data.getD i 0 + L.margin then
          (caffe_sub N b0.data b1.data L.diff_).getD i 0
        else if b2.data.getD i 0 < b3.data.getD i 0 - L.margin then
          -(caffe_sub N b0.data b1.data L.diff_).getD i 0
        else 0) =
        RankingLossLayer.signedDistance L.margin b0.data b1.data b2.data b3.data i := by
    intro i hi
    simp only [RankingLossLayer.signedDistance, hdiff i hi]
  rw [storeLoop_congr _ (fun j _ => RankingLossLayer.signedDistance L.margin b0.data b1.data
      b2.data b3.data j) N L.dist_mine_ (fun i hi _ => hsd i hi),
    Finset.sum_congr rfl (fun i hi => by rw [hsd i (Finset.mem_range.mp hi)]), zero_add]
  rfl

/-- The whole state after `RealRankingLossLayer::Forward_cpu`, written on the input
vectors. -/
theorem RealRanking_Forward_cpu_state (N : Nat) (L : RealRankingLossLayer)
    (b0 b1 b2 b3 t : Blob) (ts : List Blob) (h0 : b0.IsVec N) (hd : L.diff_.length = N)
    (hm : L.dist_mine_.length = N) (hd2 : L.diff2_.length = N) (hr : L.rescaled_.length = N) :
    L.Forward_cpu [b0, b1, b2, b3] (t :: ts) =
      (⟨L.margin, storeLoop (fun i _ => b0.data.getD i 0 - b1.data.getD i 0) N L.diff_,
          storeLoop (fun j _ => RealRankingLossLayer.signedDistance b0.data b1.data
            b2.data b3.data j) N L.dist_mine_,
          storeLoop (fun i _ => b2.data.getD i 0 - b3.data.getD i 0) N L.diff2_,
          storeLoop (fun i _ => (1 / 80) * (b2.data.getD i 0 - b3.data.getD i 0)) N
            L.rescaled_⟩,
        { t with
          data := t.data.set 0 ((∑ i in Finset.range N, max (L.margin -
            RealRankingLossLayer.signedDistance b0.data b1.data b2.data b3.data i) 0) /
              (N : ℚ)) } :: ts) := by
  have hc := h0.count_eq
  have hnum : b0.num = N := h0.1
  have hdiff : ∀ i, i < N → (caffe_sub N b0.data b1.data L.diff_).getD i 0 =
      b0.data.getD i 0 - b1.data.getD i 0 :=
    fun i hi => caffe_sub_getD N _ _ _ i hi (by omega)
  have hresc : caffe_cpu_axpby N (1 / 80) (caffe_sub N b2.data b3.data L.diff2_) 0
      L.rescaled_ =
        storeLoop (fun i _ => (1 / 80) * (b2.data.getD i 0 - b3.data.getD i 0)) N
          L.rescaled_ := by
    show storeLoop (fun i v => (1 / 80) * (caffe_sub N b2.data b3.data L.diff2_).getD i 0 +
      0 * v) N L.rescaled_ = _
    apply storeLoop_congr
    intro i hi v
    rw [caffe_sub_getD N _ _ _ i hi (by omega), zero_mul, add_zero]
  rw [RealRanking_Forward_cpu_cons, hc, hnum, hresc, RealRanking_forwardBody_eq,
    forLoop_hingeStep _ _ _ _ _ (by omega)]
  dsimp only
  have hsd : ∀ i, i < N →
      (if static_cast_int ((storeLoop (fun i _ => (1 / 80) *
            (b2.data.getD i 0 - b3.data.getD i 0)) N L.rescaled_).getD i 0) ≠ 0 then
          (caffe_sub N b0.data b1.data L.diff_).getD i 0
        else -(caffe_sub N b0.data b1.data L.diff_).getD i 0) =
        RealRankingLossLayer.signedDistance b0.data b1.data b2.data b3.data i := by
    intro i hi
    have hlen : i < L.rescaled_.length := by omega
    simp only [storeLoop_getD, hi, hlen, and_self, if_true,
      RealRankingLossLayer.signedDistance, hdiff i hi]
  rw [storeLoop_congr _ (fun j _ => RealRankingLossLayer.signedDistance b0.data b1.data
      b2.data b3.data j) N L.dist_mine_ (fun i hi _ => hsd i hi),
    Finset.sum_congr rfl (fun i hi => by rw [hsd i (Finset.mem_range.mp hi)]), zero_add]
  rfl

/-- For buffers of at least `N` cells: the whole state after `RankingLossLayer::Forward_cpu`, written on the input vectors. -/
theorem Ranking_Forward_cpu_state_ge (N : Nat) (L : RankingLossLayer) (b0 b1 b2 b3 t : Blob)
    (ts : List Blob) (h0 : b0.IsVec N) (hd : N ≤ L.diff_.length)
    (hm : N ≤ L.dist_mine_.length) :
    L.Forward_cpu [b0, b1, b2, b3] (t :: ts) =
      (⟨L.margin, storeLoop (fun i _ => b0.data.getD i 0 - b1.data.getD i 0) N L.diff_,
          storeLoop (fun j _ => RankingLossLayer.signedDistance L.margin b0.data b1.data
            b2.data b3.data j) N L.dist_mine_⟩,
        { t with
          data := t.data.set 0 ((∑ i in Finset.range N, max (L.margin -
            RankingLossLayer.signedDistance L.margin b0.data b1.data b2.data b3.data i) 0) /
              (N : ℚ)) } :: ts) := by
  have hc := h0.count_eq
  have hnum : b0.num = N := h0.1
  have hdiff : ∀ i, i < N → (caffe_sub N b0.data b1.data L.diff_).getD i 0 =
      b0.data.getD i 0 - b1.data.getD i 0 :=
    fun i hi => caffe_sub_getD N _ _ _ i hi (by omega)
  rw [Ranking_Forward_cpu_cons, hc, hnum, Ranking_forwardBody_eq,
    forLoop_hingeStep _ _ _ _ _ (by omega)]
  dsimp only
  have hsd : ∀ i, i < N →
      (if b2.data.getD i 0 > b3.data.getD i 0 + L.margin then
          (caffe_sub N b0.data b1.data L.diff_).getD i 0
        else if b2.data.getD i 0 < b3.data.getD i 0 - L.margin then
          -(caffe_sub N b0.data b1.data L.diff_).getD i 0
        else 0) =
        RankingLossLayer.signedDistance L.margin b0.data b1.data b2.data b3.data i := by
    intro i hi
    simp only [RankingLossLayer.signedDistance, hdiff i hi]
  rw [storeLoop_congr _ (fun j _ => RankingLossLayer.signedDistance L.margin b0.data b1.data
      b2.data b3.data j) N L.dist_mine_ (fun i hi _ => hsd i hi),
    Finset.sum_congr rfl (fun i hi => by rw [hsd i (Finset.mem_range.mp hi)]), zero_add]
  rfl

/-- For buffers of at least `N` cells: the whole state after `RealRankingLossLayer::Forward_cpu`, written on the input
vectors. -/
theorem RealRanking_Forward_cpu_state_ge (N : Nat) (L : RealRankingLossLayer)
    (b0 b1 b2 b3 t : Blob) (ts : List Blob) (h0 : b0.IsVec N) (hd : N ≤ L.diff_.length)
    (hm : N ≤ L.dist_mine_.length) (hd2 : N ≤ L.diff2_.length) (hr : N ≤ L.rescaled_.length) :
    L.Forward_cpu [b0, b1, b2, b3] (t :: ts) =
      (⟨L.margin, storeLoop (fun i _ => b0.data.getD i 0 - b1.data.getD i 0) N L.diff_,
          storeLoop (fun j _ => RealRankingLossLayer.signedDistance b0.data b1.data
            b2.data b3.data j) N L.dist_mine_,
          storeLoop (fun i _ => b2.data.getD i 0 - b3.data.getD i 0) N L.diff2_,
          storeLoop (fun i _ => (1 / 80) * (b2.data.getD i 0 - b3.data.getD i 0)) N
            L.rescaled_⟩,
        { t with
          data := t.data.set 0 ((∑ i in Finset.range N, max (L.margin -
            RealRankingLossLayer.signedDistance b0.data b1.data b2.data b3.data i) 0) /
              (N : ℚ)) } :: ts) := by
  have hc := h0.count_eq
  have hnum : b0.num = N := h0.1
  have hdiff : ∀ i, i < N → (caffe_sub N b0.data b1.data L.diff_).getD i 0 =
      b0.data.getD i 0 - b1.data.getD i 0 :=
    fun i hi => caffe_sub_getD N _ _ _ i hi (by omega)
  have hresc : caffe_cpu_axpby N (1 / 80) (caffe_sub N b2.data b3.data L.diff2_) 0
      L.rescaled_ =
        storeLoop (fun i _ => (1 / 80) * (b2.data.getD i 0 - b3.data.getD i 0)) N
          L.rescaled_ := by
    show storeLoop (fun i v => (1 / 80) * (caffe_sub N b2.data b3.data L.diff2_).getD i 0 +
      0 * v) N L.rescaled_ = _
    apply storeLoop_congr
    intro i hi v
    rw [caffe_sub_getD N _ _ _ i hi (by omega), zero_mul, add_zero]
  rw [RealRanking_Forward_cpu_cons, hc, hnum, hresc, RealRanking_forwardBody_eq,
    forLoop_hingeStep _ _ _ _ _ (by omega)]
  dsimp only
  have hsd : ∀ i, i < N →
      (if static_cast_int ((storeLoop (fun i _ => (1 / 80) *
            (b2.data.getD i 0 - b3.data.getD i 0)) N L.rescaled_).getD i 0) ≠ 0 then
          (caffe_sub N b0.data b1.data L.diff_).getD i 0
        else -(caffe_sub N b0.data b1.data L.diff_).getD i 0) =
        RealRankingLossLayer.signedDistance b0.data b1.data b2.data b3.data i := by
    intro i hi
    have hlen : i < L.rescaled_.length := by omega
    simp only [storeLoop_getD, hi, hlen, and_self, if_true,
      RealRankingLossLayer.signedDistance, hdiff i hi]
  rw [storeLoop_congr _ (fun j _ => RealRankingLossLayer.signedDistance b0.data b1.data
      b2.data b3.data j) N L.dist_mine_ (fun i hi _ => hsd i hi),
    Finset.sum_congr rfl (fun i hi => by rw [hsd i (Finset.mem_range.mp hi)]), zero_add]
  rfl

/-! ## Idempotence of the forward pass -/

/-- C15 (counterexample): with `N = 2` and two starting states whose buffers have the same
size `3`, `RankingLossLayer::Forward_cpu` on the same inputs leaves `Difference = [1, 0, 9]`
from one state and `[1, 0, 7]` from the other: the cell beyond the batch keeps its prior
content, so the cached buffers differ. -/
theorem Forward_cpu_stale_cell :
    (RankingLossLayer.Forward_cpu ⟨3 / 10, [0, 0, 9], [0, 0, 9]⟩
        [vecBlob [1, 0] [0, 0], vecBlob [0, 0] [0, 0], vecBlob [1, 0] [0, 0],
          vecBlob [0, 1] [0, 0]] [⟨1, 1, 1, 1, [0], [1]⟩]).1.diff_ = [1, 0, 9] ∧
    (RankingLossLayer.Forward_cpu ⟨3 / 10, [0, 0, 7], [0, 0, 7]⟩
        [vecBlob [1, 0] [0, 0], vecBlob [0, 0] [0, 0], vecBlob [1, 0] [0, 0],
          vecBlob [0, 1] [0, 0]] [⟨1, 1, 1, 1, [0], [1]⟩]).1.diff_ = [1, 0, 7] ∧
    (RankingLossLayer.Forward_cpu ⟨3 / 10, [0, 0, 9], [0, 0, 9]⟩
        [vecBlob [1, 0] [0, 0], vecBlob [0, 0] [0, 0], vecBlob [1, 0] [0, 0],
          vecBlob [0, 1] [0, 0]] [⟨1, 1, 1, 1, [0], [1]⟩]).1 ≠
      (RankingLossLayer.Forward_cpu ⟨3 / 10, [0, 0, 7], [0, 0, 7]⟩
        [vecBlob [1, 0] [0, 0], vecBlob [0, 0] [0, 0], vecBlob [1, 0] [0, 0],
          vecBlob [0, 1] [0, 0]] [⟨1, 1, 1, 1, [0], [1]⟩]).1 := by
  decide!

theorem Ranking_Forward_cpu_rerun (N : Nat) (L L2 : RankingLossLayer)
    (b0 b1 b2 b3 t : Blob) (ts : List Blob) (h0 : b0.IsVec N)
    (hd : N ≤ L.diff_.length) (hm : N ≤ L.dist_mine_.length)
    (hd' : N ≤ L2.diff_.length) (hm' : N ≤ L2.dist_mine_.length)
    (hmarg : L2.margin = L.margin) (ht : 0 < t.data.length) :
    ((L.Forward_cpu [b0, b1, b2, b3] (t :: ts)).1.Forward_cpu [b0, b1, b2, b3] (L.Forward_cpu [b0, b1, b2, b3] (t :: ts)).2).1 = (L.Forward_cpu [b0, b1, b2, b3] (t :: ts)).1 ∧
    lossOf ((L.Forward_cpu [b0, b1, b2, b3] (t :: ts)).1.Forward_cpu [b0, b1, b2, b3] (L.Forward_cpu [b0, b1, b2, b3] (t :: ts)).2).2 = lossOf (L.Forward_cpu [b0, b1, b2, b3] (t :: ts)).2 ∧
    lossOf (L2.Forward_cpu [b0, b1, b2, b3] (t :: ts)).2 = lossOf (L.Forward_cpu [b0, b1, b2, b3] (t :: ts)).2 ∧
    (∀ i, i < N →
      (L2.Forward_cpu [b0, b1, b2, b3] (t :: ts)).1.diff_.getD i 0 = (L.Forward_cpu [b0, b1, b2, b3] (t :: ts)).1.diff_.getD i 0 ∧
      (L2.Forward_cpu [b0, b1, b2, b3] (t :: ts)).1.dist_mine_.getD i 0 =
        (L.Forward_cpu [b0, b1, b2, b3] (t :: ts)).1.dist_mine_.getD i 0) ∧
    (∀ i, N ≤ i → (L.Forward_cpu [b0, b1, b2, b3] (t :: ts)).1.diff_.getD i 0 = L.diff_.getD i 0 ∧
      (L.Forward_cpu [b0, b1, b2, b3] (t :: ts)).1.dist_mine_.getD i 0 = L.dist_mine_.getD i 0) ∧
    (L.diff_.length = N → L.dist_mine_.length = N → L2.diff_.length = N →
      L2.dist_mine_.length = N →
      L2.Forward_cpu [b0, b1, b2, b3] (t :: ts) = (L.Forward_cpu [b0, b1, b2, b3] (t :: ts))) := by
  have hL := Ranking_Forward_cpu_state_ge N L b0 b1 b2 b3 t ts h0 hd hm
  have hL2 := Ranking_Forward_cpu_state_ge N L2 b0 b1 b2 b3 t ts h0 hd' hm'
  refine ⟨?_, ?_, ?_, ?_, ?_, ?_⟩
  · rw [hL]
    dsimp only
    rw [Ranking_Forward_cpu_state_ge N _ b0 b1 b2 b3 _ ts h0
      (by rw [storeLoop_length]; exact hd) (by rw [storeLoop_length]; exact hm)]
    dsimp only
    rw [storeLoop_idem, storeLoop_idem]
  · rw [hL]
    dsimp only
    rw [Ranking_Forward_cpu_state_ge N _ b0 b1 b2 b3 _ ts h0
      (by rw [storeLoop_length]; exact hd) (by rw [storeLoop_length]; exact hm)]
    dsimp only
    simp only [lossOf, List.getD_cons_zero, getD_set, List.length_set, ht, and_self, if_true]
  · rw [hL, hL2, hmarg]
  · intro i hi
    rw [hL, hL2, hmarg]
    dsimp only
    rw [storeLoop_getD, storeLoop_getD, storeLoop_getD, storeLoop_getD,
      if_pos ⟨hi, by omega⟩, if_pos ⟨hi, by omega⟩, if_pos ⟨hi, by omega⟩,
      if_pos ⟨hi, by omega⟩]
    exact ⟨rfl, rfl⟩
  · intro i hi
    rw [hL]
    dsimp only
    rw [storeLoop_getD, storeLoop_getD, if_neg (fun h => absurd h.1 (by omega)),
      if_neg (fun h => absurd h.1 (by omega))]
    exact ⟨rfl, rfl⟩
  · intro e1 e2 e3 e4
    rw [hL, hL2, hmarg, storeLoop_of_length _ N L2.diff_ L.diff_ e3 e1,
      storeLoop_of_length _ N L2.dist_mine_ L.dist_mine_ e4 e2]

theorem RealRanking_Forward_cpu_rerun (N : Nat) (R R2 : RealRankingLossLayer)
    (b0 b1 b2 b3 t : Blob) (ts : List Blob) (h0 : b0.IsVec N)
    (hd : N ≤ R.diff_.length) (hm : N ≤ R.dist_mine_.length)
    (hd2 : N ≤ R.diff2_.length) (hr : N ≤ R.rescaled_.length)
    (hd' : N ≤ R2.diff_.length) (hm' : N ≤ R2.dist_mine_.length)
    (hd2' : N ≤ R2.diff2_.length) (hr' : N ≤ R2.rescaled_.length)
    (hmarg : R2.margin = R.margin) (ht : 0 < t.data.length) :
    ((R.Forward_cpu [b0, b1, b2, b3] (t :: ts)).1.Forward_cpu [b0, b1, b2, b3] (R.Forward_cpu [b0, b1, b2, b3] (t :: ts)).2).1 = (R.Forward_cpu [b0, b1, b2, b3] (t :: ts)).1 ∧
    lossOf ((R.Forward_cpu [b0, b1, b2, b3] (t :: ts)).1.Forward_cpu [b0, b1, b2, b3] (R.Forward_cpu [b0, b1, b2, b3] (t :: ts)).2).2 = lossOf (R.Forward_cpu [b0, b1, b2, b3] (t :: ts)).2 ∧
    lossOf (R2.Forward_cpu [b0, b1, b2, b3] (t :: ts)).2 = lossOf (R.Forward_cpu [b0, b1, b2, b3] (t :: ts)).2 ∧
    (∀ i, i < N →
      (R2.Forward_cpu [b0, b1, b2, b3] (t :: ts)).1.diff_.getD i 0 = (R.Forward_cpu [b0, b1, b2, b3] (t :: ts)).1.diff_.getD i 0 ∧
      (R2.Forward_cpu [b0, b1, b2, b3] (t :: ts)).1.dist_mine_.getD i 0 =
        (R.Forward_cpu [b0, b1, b2, b3] (t :: ts)).1.dist_mine_.getD i 0) ∧
    (∀ i, N ≤ i → (R.Forward_cpu [b0, b1, b2, b3] (t :: ts)).1.diff_.getD i 0 = R.diff_.getD i 0 ∧
      (R.Forward_cpu [b0, b1, b2, b3] (t :: ts)).1.dist_mine_.getD i 0 = R.dist_mine_.getD i 0) ∧
    (R.diff_.length = N → R.dist_mine_.length = N → R.diff2_.length = N →
      R.rescaled_.length = N → R2.diff_.length = N → R2.dist_mine_.length = N →
      R2.diff2_.length = N → R2.rescaled_.length = N →
      R2.Forward_cpu [b0, b1, b2, b3] (t :: ts) = (R.Forward_cpu [b0, b1, b2, b3] (t :: ts))) := by
  have hR := RealRanking_Forward_cpu_state_ge N R b0 b1 b2 b3 t ts h0 hd hm hd2 hr
  have hR2 := RealRanking_Forward_cpu_state_ge N R2 b0 b1 b2 b3 t ts h0 hd' hm' hd2' hr'
  refine ⟨?_, ?_, ?_, ?_, ?_, ?_⟩
  · rw [hR]
    dsimp only
    rw [RealRanking_Forward_cpu_state_ge N _ b0 b1 b2 b3 _ ts h0
      (by rw [storeLoop_length]; exact hd) (by rw [storeLoop_length]; exact hm)
      (by rw [storeLoop_length]; exact hd2) (by rw [storeLoop_length]; exact hr)]
    dsimp only
    rw [storeLoop_idem, storeLoop_idem, storeLoop_idem, storeLoop_idem]
  · rw [hR]
    dsimp only
    rw [RealRanking_Forward_cpu_state_ge N _ b0 b1 b2 b3 _ ts h0
      (by rw [storeLoop_length]; exact hd) (by rw [storeLoop_length]; exact hm)
      (by rw [storeLoop_length]; exact hd2) (by rw [storeLoop_length]; exact hr)]
    dsimp only
    simp only [lossOf, List.getD_cons_zero, getD_set, List.length_set, ht, and_self, if_true]
  · rw [hR, hR2, hmarg]
  · intro i hi
    rw [hR, hR2, hmarg]
    dsimp only
    rw [storeLoop_getD, storeLoop_getD, storeLoop_getD, storeLoop_getD,
      if_pos ⟨hi, by omega⟩, if_pos ⟨hi, by omega⟩, if_pos ⟨hi, by omega⟩,
      if_pos ⟨hi, by omega⟩]
    exact ⟨rfl, rfl⟩
  · intro i hi
    rw [hR]
    dsimp only
    rw [storeLoop_getD, storeLoop_getD, if_neg (fun h => absurd h.1 (by omega)),
      if_neg (fun h => absurd h.1 (by omega))]
    exact ⟨rfl, rfl⟩
  · intro e1 e2 e3 e4 e5 e6 e7 e8
    rw [hR, hR2, hmarg, storeLoop_of_length _ N R2.diff_ R.diff_ e5 e1,
      storeLoop_of_length _ N R2.dist_mine_ R.dist_mine_ e6 e2,
      storeLoop_of_length _ N R2.diff2_ R.diff2_ e7 e3,
      storeLoop_of_length _ N R2.rescaled_ R.rescaled_ e8 e4]

/-- C15 (amended): for both layers, on inputs of equal length `N` and from a layer state
whose buffers have at least `N` cells, a second `Forward_cpu` on the same inputs gives the
same caches and the same loss as the first; two such states with the same margin give the
same loss and the same cells `i < N` of Difference and SignedDistance; cells `i ≥ N` keep
their prior content; and the two results are equal when all buffers have exactly `N`
cells. -/
theorem Forward_cpu_idempotent (N : Nat) (hN : 1 ≤ N) (L L2 : RankingLossLayer)
    (R R2 : RealRankingLossLayer) (b0 b1 b2 b3 t : Blob) (ts : List Blob)
    (h0 : b0.IsVec N) (h1 : b1.IsVec N) (h2 : b2.IsVec N) (h3 : b3.IsVec N)
    (hd : N ≤ L.diff_.length) (hm : N ≤ L.dist_mine_.length)
    (hd' : N ≤ L2.diff_.length) (hm' : N ≤ L2.dist_mine_.length) (hmarg : L2.margin = L.margin)
    (hRd : N ≤ R.diff_.length) (hRm : N ≤ R.dist_mine_.length)
    (hRd2 : N ≤ R.diff2_.length) (hRr : N ≤ R.rescaled_.length)
    (hRd' : N ≤ R2.diff_.length) (hRm' : N ≤ R2.dist_mine_.length)
    (hRd2' : N ≤ R2.diff2_.length) (hRr' : N ≤ R2.rescaled_.length)
    (hmargR : R2.margin = R.margin) (ht : 0 < t.data.length) :
    (((L.Forward_cpu [b0, b1, b2, b3] (t :: ts)).1.Forward_cpu [b0, b1, b2, b3] (L.Forward_cpu [b0, b1, b2, b3] (t :: ts)).2).1 = (L.Forward_cpu [b0, b1, b2, b3] (t :: ts)).1 ∧
    lossOf ((L.Forward_cpu [b0, b1, b2, b3] (t :: ts)).1.Forward_cpu [b0, b1, b2, b3] (L.Forward_cpu [b0, b1, b2, b3] (t :: ts)).2).2 = lossOf (L.Forward_cpu [b0, b1, b2, b3] (t :: ts)).2 ∧
    lossOf (L2.Forward_cpu [b0, b1, b2, b3] (t :: ts)).2 = lossOf (L.Forward_cpu [b0, b1, b2, b3] (t :: ts)).2 ∧
    (∀ i, i < N →
      (L2.Forward_cpu [b0, b1, b2, b3] (t :: ts)).1.diff_.getD i 0 = (L.Forward_cpu [b0, b1, b2, b3] (t :: ts)).1.diff_.getD i 0 ∧
      (L2.Forward_cpu [b0, b1, b2, b3] (t :: ts)).1.dist_mine_.getD i 0 =
        (L.Forward_cpu [b0, b1, b2, b3] (t :: ts)).1.dist_mine_.getD i 0) ∧
    (∀ i, N ≤ i → (L.Forward_cpu [b0, b1, b2, b3] (t :: ts)).1.diff_.getD i 0 = L.diff_.getD i 0 ∧
      (L.Forward_cpu [b0, b1, b2, b3] (t :: ts)).1.dist_mine_.getD i 0 = L.dist_mine_.getD i 0) ∧
    (L.diff_.length = N → L.dist_mine_.length = N → L2.diff_.length = N →
      L2.dist_mine_.length = N →
      L2.Forward_cpu [b0, b1, b2, b3] (t :: ts) = (L.Forward_cpu [b0, b1, b2, b3] (t :: ts)))) ∧
    (((R.Forward_cpu [b0, b1, b2, b3] (t :: ts)).1.Forward_cpu [b0, b1, b2, b3] (R.Forward_cpu [b0, b1, b2, b3] (t :: ts)).2).1 = (R.Forward_cpu [b0, b1, b2, b3] (t :: ts)).1 ∧
    lossOf ((R.Forward_cpu [b0, b1, b2, b3] (t :: ts)).1.Forward_cpu [b0, b1, b2, b3] (R.Forward_cpu [b0, b1, b2, b3] (t :: ts)).2).2 = lossOf (R.Forward_cpu [b0, b1, b2, b3] (t :: ts)).2 ∧
    lossOf (R2.Forward_cpu [b0, b1, b2, b3] (t :: ts)).2 = lossOf (R.Forward_cpu [b0, b1, b2, b3] (t :: ts)).2 ∧
    (∀ i, i < N →
      (R2.Forward_cpu [b0, b1, b2, b3] (t :: ts)).1.diff_.getD i 0 = (R.Forward_cpu [b0, b1, b2, b3] (t :: ts)).1.diff_.getD i 0 ∧
      (R2.Forward_cpu [b0, b1, b2, b3] (t :: ts)).1.dist_mine_.getD i 0 =
        (R.Forward_cpu [b0, b1, b2, b3] (t :: ts)).1.dist_mine_.getD i 0) ∧
    (∀ i, N ≤ i → (R.Forward_cpu [b0, b1, b2, b3] (t :: ts)).1.diff_.getD i 0 = R.diff_.getD i 0 ∧
      (R.Forward_cpu [b0, b1, b2, b3] (t :: ts)).1.dist_mine_.getD i 0 = R.dist_mine_.getD i 0) ∧
    (R.diff_.length = N → R.dist_mine_.length = N → R.diff2_.length = N →
      R.rescaled_.length = N → R2.diff_.length = N → R2.dist_mine_.length = N →
      R2.diff2_.length = N → R2.rescaled_.length = N →
      R2.Forward_cpu [b0, b1, b2, b3] (t :: ts) = (R.Forward_cpu [b0, b1, b2, b3] (t :: ts)))) :=
  ⟨Ranking_Forward_cpu_rerun N L L2 b0 b1 b2 b3 t ts h0 hd hm hd' hm' hmarg ht,
    RealRanking_Forward_cpu_rerun N R R2 b0 b1 b2 b3 t ts h0 hRd hRm hRd2 hRr hRd' hRm' hRd2'
      hRr' hmargR ht⟩

/-- Instance of C15 (amended): a state with stale buffers of three cells and a state with
buffers of two cells, `N = 2`, give the same loss. -/
theorem Forward_cpu_idempotent_witness :
    lossOf (RankingLossLayer.Forward_cpu ⟨3 / 10, [5, 6], [7, 8]⟩
      [vecBlob [1, 0] [0, 0], vecBlob [0, 0] [0, 0], vecBlob [1, 0] [0, 0],
        vecBlob [0, 1] [0, 0]] [⟨1, 1, 1, 1, [0], [1]⟩]).2 =
      lossOf (RankingLossLayer.Forward_cpu ⟨3 / 10, [0, 0, 9], [0, 0, 9]⟩
        [vecBlob [1, 0] [0, 0], vecBlob [0, 0] [0, 0], vecBlob [1, 0] [0, 0],
          vecBlob [0, 1] [0, 0]] [⟨1, 1, 1, 1, [0], [1]⟩]).2 :=
  (Forward_cpu_idempotent 2 (by decide) ⟨3 / 10, [0, 0, 9], [0, 0, 9]⟩
    ⟨3 / 10, [5, 6], [7, 8]⟩ ⟨3 / 10, [0, 0], [0, 0], [0, 0], [0, 0]⟩
    ⟨3 / 10, [1, 1, 1], [2, 2], [3, 3], [4, 4, 4]⟩
    (vecBlob [1, 0] [0, 0]) (vecBlob [0, 0] [0, 0]) (vecBlob [1, 0] [0, 0])
    (vecBlob [0, 1] [0, 0]) ⟨1, 1, 1, 1, [0], [1]⟩ []
    (by decide) (by decide) (by decide) (by decide) (by decide) (by decide) (by decide)
    (by decide) rfl (by decide) (by decide) (by decide) (by decide) (by decide) (by decide)
    (by decide) (by decide) rfl (by decide)).1.2.2.1

/-! ## Frame of the backward pass -/

theorem Ranking_Backward_cpu_shape (L : RankingLossLayer) (top : List Blob) (pd : List Bool)
    (b0 b1 b2 b3 : Blob) :
    ∃ g0 g1 : List ℚ, L.Backward_cpu top pd [b0, b1, b2, b3] =
      [{ b0 with diff := (if pd.getD 0 false = true then g0 else b0.diff) },
        { b1 with diff := (if pd.getD 1 false = true then g1 else b1.diff) }, b2, b3] := by
  unfold RankingLossLayer.Backward_cpu
  rw [show (2 : Nat) = 0 + 1 + 1 from rfl, forLoop_succ, forLoop_succ, forLoop_zero]
  by_cases hp0 : pd.getD 0 false = true <;> by_cases hp1 : pd.getD 1 false = true <;>
    simp only [hp0, hp1, if_true, if_false, List.getD_cons_zero, List.getD_cons_succ,
      List.set_cons_zero, List.set_cons_succ, Nat.zero_add, Bool.false_eq_true] <;>
    first
      | exact ⟨_, _, rfl⟩
      | exact ⟨_, [], rfl⟩
      | exact ⟨[], _, rfl⟩
      | exact ⟨[], [], rfl⟩
      | exact ⟨[], [], trivial⟩

theorem RealRanking_Backward_cpu_shape (L : RealRankingLossLayer) (top : List Blob)
    (pd : List Bool) (b0 b1 b2 b3 : Blob) :
    ∃ g0 g1 : List ℚ, L.Backward_cpu top pd [b0, b1, b2, b3] =
      [{ b0 with diff := (if pd.getD 0 false = true then g0 else b0.diff) },
        { b1 with diff := (if pd.getD 1 false = true then g1 else b1.diff) }, b2, b3] := by
  unfold RealRankingLossLayer.Backward_cpu
  rw [show (2 : Nat) = 0 + 1 + 1 from rfl, forLoop_succ, forLoop_succ, forLoop_zero]
  by_cases hp0 : pd.getD 0 false = true <;> by_cases hp1 : pd.getD 1 false = true <;>
    simp only [hp0, hp1, if_true, if_false, List.getD_cons_zero, List.getD_cons_succ,
      List.set_cons_zero, List.set_cons_succ, Nat.zero_add, Bool.false_eq_true] <;>
    first
      | exact ⟨_, _, rfl⟩
      | exact ⟨_, [], rfl⟩
      | exact ⟨[], _, rfl⟩
      | exact ⟨[], [], rfl⟩
      | exact ⟨[], [], trivial⟩

theorem frame_of_shape (pd : List Bool) (b0 b1 b2 b3 : Blob) (g0 g1 : List ℚ)
    (out : List Blob)
    (h : out = [{ b0 with diff := (if pd.getD 0 false = true then g0 else b0.diff) },
        { b1 with diff := (if pd.getD 1 false = true then g1 else b1.diff) }, b2, b3]) :
    (pd.getD 0 false = false → (out.getD 0 default).diff = b0.diff) ∧
    (pd.getD 1 false = false → (out.getD 1 default).diff = b1.diff) ∧
    out.length = 4 ∧
    (out.getD 0 default).data = b0.data ∧ (out.getD 1 default).data = b1.data ∧
    out.getD 2 default = b2 ∧ out.getD 3 default = b3 := by
  subst h
  refine ⟨?_, ?_, rfl, rfl, rfl, rfl, rfl⟩
  · intro hp
    simp only [List.getD_cons_zero, hp, Bool.false_eq_true, if_false]
  · intro hp
    simp only [List.getD_cons_zero, List.getD_cons_succ, hp, Bool.false_eq_true, if_false]

/-- C16: for both layers and every state and input, `Backward_cpu` is a total function
(no check can abort it); the gradient buffer of an input whose request flag is false is
the buffer before the call; the data buffers of ScoreA and ScoreB and the whole blobs of
RefA and RefB are unchanged; and the layer members (the cached Difference, SignedDistance
and, for RealRankingLoss, Rescaled) are unchanged. -/
theorem Backward_cpu_frame (L : RankingLossLayer) (R : RealRankingLossLayer)
    (top : List Blob) (pd : List Bool) (b0 b1 b2 b3 : Blob) :
    ((pd.getD 0 false = false →
        ((L.Backward_cpu top pd [b0, b1, b2, b3]).getD 0 default).diff = b0.diff) ∧
      (pd.getD 1 false = false →
        ((L.Backward_cpu top pd [b0, b1, b2, b3]).getD 1 default).diff = b1.diff) ∧
      (L.Backward_cpu top pd [b0, b1, b2, b3]).length = 4 ∧
      ((L.Backward_cpu top pd [b0, b1, b2, b3]).getD 0 default).data = b0.data ∧
      ((L.Backward_cpu top pd [b0, b1, b2, b3]).getD 1 default).data = b1.data ∧
      (L.Backward_cpu top pd [b0, b1, b2, b3]).getD 2 default = b2 ∧
      (L.Backward_cpu top pd [b0, b1, b2, b3]).getD 3 default = b3) ∧
    (L.Backward_state top pd [b0, b1, b2, b3]).1 = L ∧
    (L.Backward_state top pd [b0, b1, b2, b3]).2 = L.Backward_cpu top pd [b0, b1, b2, b3] ∧
    ((pd.getD 0 false = false →
        ((R.Backward_cpu top pd [b0, b1, b2, b3]).getD 0 default).diff = b0.diff) ∧
      (pd.getD 1 false = false →
        ((R.Backward_cpu top pd [b0, b1, b2, b3]).getD 1 default).diff = b1.diff) ∧
      (R.Backward_cpu top pd [b0, b1, b2, b3]).length = 4 ∧
      ((R.Backward_cpu top pd [b0, b1, b2, b3]).getD 0 default).data = b0.data ∧
      ((R.Backward_cpu top pd [b0, b1, b2, b3]).getD 1 default).data = b1.data ∧
      (R.Backward_cpu top pd [b0, b1, b2, b3]).getD 2 default = b2 ∧
      (R.Backward_cpu top pd [b0, b1, b2, b3]).getD 3 default = b3) ∧
    (R.Backward_state top pd [b0, b1, b2, b3]).1 = R ∧
    (R.Backward_state top pd [b0, b1, b2, b3]).2 = R.Backward_cpu top pd [b0, b1, b2, b3] := by
  obtain ⟨g0, g1, hL⟩ := Ranking_Backward_cpu_shape L top pd b0 b1 b2 b3
  obtain ⟨k0, k1, hR⟩ := RealRanking_Backward_cpu_shape R top pd b0 b1 b2 b3
  exact ⟨frame_of_shape pd b0 b1 b2 b3 g0 g1 _ hL, rfl, rfl,
    frame_of_shape pd b0 b1 b2 b3 k0 k1 _ hR, rfl, rfl⟩

/-! ## The truncation threshold of RealRankingLossLayer -/

theorem static_cast_int_eq_zero_iff (x : ℚ) : static_cast_int x = 0 ↔ |x| < 1 := by
  unfold static_cast_int
  have hden : (0 : ℚ) < (x.den : ℚ) := by exact_mod_cast x.den_pos
  have habs : |x| = ((x.num.natAbs : ℕ) : ℚ) / (x.den : ℚ) := by
    conv_lhs => rw [← Rat.num_div_den x]
    rw [abs_div, abs_of_pos hden, Nat.cast_natAbs, Int.cast_abs]
  rw [← Int.natAbs_eq_zero, Int.natAbs_tdiv, Int.natAbs_ofNat, habs, div_lt_one hden,
    Nat.cast_lt]
  exact Nat.div_eq_zero_iff x.den_pos

theorem static_cast_int_scaled (d : ℚ) : static_cast_int ((1 / 80) * d) ≠ 0 ↔ 80 ≤ |d| := by
  rw [Ne, static_cast_int_eq_zero_iff, not_lt, abs_mul,
    abs_of_pos (by norm_num : (0 : ℚ) < 1 / 80)]
  constructor <;> intro h <;> linarith

/-- C17: with the constant `1/80`, the truncation of `(1/80) * (RefA[i] - RefB[i])` is
nonzero iff `|RefA[i] - RefB[i]| ≥ 80`; hence `RealRankingLossLayer::Forward_cpu` caches
`SignedDistance[i] = -Difference[i]` whenever `|RefA[i] - RefB[i]| < 80` and
`SignedDistance[i] = Difference[i]` whenever `RefA[i] - RefB[i] ≥ 80`; a rescaled value
`0.999` truncates to zero and `1.001` does not. -/
theorem RealRanking_Forward_cpu_threshold (N : Nat) (hN : 1 ≤ N) (L : RealRankingLossLayer)
    (b0 b1 b2 b3 t : Blob) (ts : List Blob)
    (h0 : b0.IsVec N) (h1 : b1.IsVec N) (h2 : b2.IsVec N) (h3 : b3.IsVec N)
    (hd : L.diff_.length = N) (hm : L.dist_mine_.length = N)
    (hd2 : L.diff2_.length = N) (hr : L.rescaled_.length = N) (ht : 0 < t.data.length)
    (i : Nat) (hi : i < N) :
    (static_cast_int ((1 / 80) * (b2.data.getD i 0 - b3.data.getD i 0)) ≠ 0 ↔
      80 ≤ |b2.data.getD i 0 - b3.data.getD i 0|) ∧
    (|b2.data.getD i 0 - b3.data.getD i 0| < 80 →
      (L.Forward_cpu [b0, b1, b2, b3] (t :: ts)).1.dist_mine_.getD i 0 =
        -((L.Forward_cpu [b0, b1, b2, b3] (t :: ts)).1.diff_.getD i 0)) ∧
    (80 ≤ b2.data.getD i 0 - b3.data.getD i 0 →
      (L.Forward_cpu [b0, b1, b2, b3] (t :: ts)).1.dist_mine_.getD i 0 =
        (L.Forward_cpu [b0, b1, b2, b3] (t :: ts)).1.diff_.getD i 0) ∧
    static_cast_int (999 / 1000) = 0 ∧ static_cast_int (1001 / 1000) ≠ 0 := by
  obtain ⟨hD, -, hS, -⟩ :=
    RealRanking_Forward_cpu_closed N L b0 b1 b2 b3 t ts h0 hd hm hd2 hr ht
  refine ⟨static_cast_int_scaled _, ?_, ?_, ?_, ?_⟩
  · intro hlt
    have hz : ¬static_cast_int ((1 / 80) * (b2.data.getD i 0 - b3.data.getD i 0)) ≠ 0 :=
      fun h => absurd ((static_cast_int_scaled _).mp h) (not_le.mpr hlt)
    rw [hS i hi, hD i hi]
    unfold RealRankingLossLayer.signedDistance
    rw [if_neg hz]
  · intro hge
    have hnz : static_cast_int ((1 / 80) * (b2.data.getD i 0 - b3.data.getD i 0)) ≠ 0 :=
      (static_cast_int_scaled _).mpr (le_trans hge (le_abs_self _))
    rw [hS i hi, hD i hi]
    unfold RealRankingLossLayer.signedDistance
    rw [if_pos hnz]
  · rw [static_cast_int_eq_zero_iff, abs_lt]
    constructor <;> norm_num
  · rw [Ne, static_cast_int_eq_zero_iff, not_lt]
    exact le_trans (by norm_num) (le_abs_self _)

/-- Instance of C17: two pairs, with `RefA - RefB = 79` and `RefA - RefB = 80`; the
second one is on the `+Difference` side. -/
theorem RealRanking_Forward_cpu_threshold_witness :
    (RealRankingLossLayer.Forward_cpu ⟨3 / 10, [0, 0], [0, 0], [0, 0], [0, 0]⟩
        [vecBlob [1, 2] [0, 0], vecBlob [0, 0] [0, 0], vecBlob [79, 80] [0, 0],
          vecBlob [0, 0] [0, 0]] [⟨1, 1, 1, 1, [0], [1]⟩]).1.dist_mine_.getD 1 0 =
      (RealRankingLossLayer.Forward_cpu ⟨3 / 10, [0, 0], [0, 0], [0, 0], [0, 0]⟩
        [vecBlob [1, 2] [0, 0], vecBlob [0, 0] [0, 0], vecBlob [79, 80] [0, 0],
          vecBlob [0, 0] [0, 0]] [⟨1, 1, 1, 1, [0], [1]⟩]).1.diff_.getD 1 0 :=
  (RealRanking_Forward_cpu_threshold 2 (by decide) ⟨3 / 10, [0, 0], [0, 0], [0, 0], [0, 0]⟩
    (vecBlob [1, 2] [0, 0]) (vecBlob [0, 0] [0, 0]) (vecBlob [79, 80] [0, 0])
    (vecBlob [0, 0] [0, 0]) ⟨1, 1, 1, 1, [0], [1]⟩ []
    (by decide) (by decide) (by decide) (by decide) rfl rfl rfl rfl (by decide)
    1 (by decide)).2.2.1 (by norm_num [vecBlob])

/-! ## Dependence on the scores through their difference -/

theorem getD_zipWith_add (a c : List ℚ) (i : Nat) (ha : i < a.length) (hc : i < c.length) :
    (List.zipWith (· + ·) a c).getD i 0 = a.getD i 0 + c.getD i 0 := by
  have hz : i < (List.zipWith (· + ·) a c).length := by
    rw [List.length_zipWith]
    exact lt_min ha hc
  rw [List.getD_eq_getElem _ _ hz, List.getD_eq_getElem _ _ ha, List.getD_eq_getElem _ _ hc,
    List.getElem_zipWith]

theorem Blob.IsVec.with_data {N : Nat} {b : Blob} (h : b.IsVec N) (d : List ℚ)
    (hd : d.length = N) : Blob.IsVec N { b with data := d } := by
  obtain ⟨h1, h2, h3, h4, -, h6⟩ := h
  exact ⟨h1, h2, h3, h4, hd, h6⟩

theorem Ranking_signedDistance_congr (m : ℚ) (a b a2 b2 ra rb : List ℚ) (i : Nat)
    (h : a2.getD i 0 - b2.getD i 0 = a.getD i 0 - b.getD i 0) :
    RankingLossLayer.signedDistance m a2 b2 ra rb i =
      RankingLossLayer.signedDistance m a b ra rb i := by
  unfold RankingLossLayer.signedDistance
  rw [h]

theorem RealRanking_signedDistance_congr (a b a2 b2 ra rb : List ℚ) (i : Nat)
    (h : a2.getD i 0 - b2.getD i 0 = a.getD i 0 - b.getD i 0) :
    RealRankingLossLayer.signedDistance a2 b2 ra rb i =
      RealRankingLossLayer.signedDistance a b ra rb i := by
  unfold RealRankingLossLayer.signedDistance
  rw [h]

/-- C18 (amended): over exact arithmetic, for both layers, `N ≥ 1`, inputs of length `N` and
every shift vector `c` of length
`N`, `Forward_cpu` on `(ScoreA + c, ScoreB + c, RefA, RefB)` produces the same state as on
`(ScoreA, ScoreB, RefA, RefB)`: the same loss, the same Difference and the same
SignedDistance. -/
theorem Forward_cpu_shift_invariant (N : Nat) (hN : 1 ≤ N) (L : RankingLossLayer)
    (R : RealRankingLossLayer) (b0 b1 b2 b3 t : Blob) (ts : List Blob) (c : List ℚ)
    (h0 : b0.IsVec N) (h1 : b1.IsVec N) (h2 : b2.IsVec N) (h3 : b3.IsVec N)
    (hd : L.diff_.length = N) (hm : L.dist_mine_.length = N)
    (hRd : R.diff_.length = N) (hRm : R.dist_mine_.length = N)
    (hRd2 : R.diff2_.length = N) (hRr : R.rescaled_.length = N) (ht : 0 < t.data.length)
    (hc : c.length = N) :
    L.Forward_cpu [{ b0 with data := List.zipWith (· + ·) b0.data c },
        { b1 with data := List.zipWith (· + ·) b1.data c }, b2, b3] (t :: ts) =
      L.Forward_cpu [b0, b1, b2, b3] (t :: ts) ∧
    R.Forward_cpu [{ b0 with data := List.zipWith (· + ·) b0.data c },
        { b1 with data := List.zipWith (· + ·) b1.data c }, b2, b3] (t :: ts) =
      R.Forward_cpu [b0, b1, b2, b3] (t :: ts) := by
  have hla : b0.data.length = N := h0.2.2.2.2.1
  have hlb : b1.data.length = N := h1.2.2.2.2.1
  have h0' : Blob.IsVec N { b0 with data := List.zipWith (· + ·) b0.data c } :=
    h0.with_data _ (by rw [List.length_zipWith, hla, hc, min_self])
  have hsub : ∀ i, i < N →
      (List.zipWith (· + ·) b0.data c).getD i 0 - (List.zipWith (· + ·) b1.data c).getD i 0 =
        b0.data.getD i 0 - b1.data.getD i 0 := by
    intro i hi
    rw [getD_zipWith_add _ _ i (by omega) (by omega),
      getD_zipWith_add _ _ i (by omega) (by omega)]
    ring
  constructor
  · rw [Ranking_Forward_cpu_state N L _ _ b2 b3 t ts h0' hd hm,
      Ranking_Forward_cpu_state N L b0 b1 b2 b3 t ts h0 hd hm]
    dsimp only
    rw [storeLoop_congr _ (fun i _ => b0.data.getD i 0 - b1.data.getD i 0) N L.diff_
        (fun i hi _ => hsub i hi),
      storeLoop_congr _ (fun j _ => RankingLossLayer.signedDistance L.margin b0.data b1.data
        b2.data b3.data j) N L.dist_mine_
        (fun i hi _ => Ranking_signedDistance_congr _ _ _ _ _ _ _ i (hsub i hi)),
      Finset.sum_congr rfl (fun i hi => by
        rw [Ranking_signedDistance_congr _ _ _ _ _ _ _ i (hsub i (Finset.mem_range.mp hi))])]
  · rw [RealRanking_Forward_cpu_state N R _ _ b2 b3 t ts h0' hRd hRm hRd2 hRr,
      RealRanking_Forward_cpu_state N R b0 b1 b2 b3 t ts h0 hRd hRm hRd2 hRr]
    dsimp only
    rw [storeLoop_congr _ (fun i _ => b0.data.getD i 0 - b1.data.getD i 0) N R.diff_
        (fun i hi _ => hsub i hi),
      storeLoop_congr _ (fun j _ => RealRankingLossLayer.signedDistance b0.data b1.data
        b2.data b3.data j) N R.dist_mine_
        (fun i hi _ => RealRanking_signedDistance_congr _ _ _ _ _ _ i (hsub i hi)),
      Finset.sum_congr rfl (fun i hi => by
        rw [RealRanking_signedDistance_congr _ _ _ _ _ _ i (hsub i (Finset.mem_range.mp hi))])]

/-- Instance of C18: two pairs shifted by `c = [10, -3]`. -/
theorem Forward_cpu_shift_invariant_witness :
    RankingLossLayer.Forward_cpu ⟨3 / 10, [0, 0], [0, 0]⟩
      [{ vecBlob [1, 0] [0, 0] with
          data := List.zipWith (· + ·) (vecBlob [1, 0] [0, 0]).data [10, -3] },
        { vecBlob [0, 0] [0, 0] with
          data := List.zipWith (· + ·) (vecBlob [0, 0] [0, 0]).data [10, -3] },
        vecBlob [1, 0] [0, 0], vecBlob [0, 1] [0, 0]] [⟨1, 1, 1, 1, [0], [1]⟩] =
      RankingLossLayer.Forward_cpu ⟨3 / 10, [0, 0], [0, 0]⟩
        [vecBlob [1, 0] [0, 0], vecBlob [0, 0] [0, 0], vecBlob [1, 0] [0, 0],
          vecBlob [0, 1] [0, 0]] [⟨1, 1, 1, 1, [0], [1]⟩] :=
  (Forward_cpu_shift_invariant 2 (by decide) ⟨3 / 10, [0, 0], [0, 0]⟩
    ⟨3 / 10, [0, 0], [0, 0], [0, 0], [0, 0]⟩
    (vecBlob [1, 0] [0, 0]) (vecBlob [0, 0] [0, 0]) (vecBlob [1, 0] [0, 0])
    (vecBlob [0, 1] [0, 0]) ⟨1, 1, 1, 1, [0], [1]⟩ [] [10, -3]
    (by decide) (by decide) (by decide) (by decide) rfl rfl rfl rfl rfl rfl (by decide)
    rfl).1

/-! ## The value written by the backward pass of RankingLossLayer -/

theorem Ranking_gradValue_of_nonneg (m lam : ℚ) (r2 r3 dist : List ℚ) (N i : Nat)
    (hm0 : 0 ≤ m) :
    RankingLossLayer.gradValue m lam r2 r3 dist N i =
      if m - dist.getD i 0 > 0 ∧ |r2.getD i 0 - r3.getD i 0| > m then -(lam / (N : ℚ))
      else 0 := by
  unfold RankingLossLayer.gradValue
  by_cases hact : m - dist.getD i 0 > 0
  · rw [if_pos hact]
    by_cases hA : r2.getD i 0 > r3.getD i 0 + m
    · have hgt : r2.getD i 0 > r3.getD i 0 := by linarith
      have habs : |r2.getD i 0 - r3.getD i 0| > m := lt_abs.mpr (Or.inl (by linarith))
      rw [if_pos hA, if_pos hgt, if_pos ⟨hact, habs⟩]
      ring
    · rw [if_neg hA]
      by_cases hB : r2.getD i 0 < r3.getD i 0 - m
      · have hgt : ¬r2.getD i 0 > r3.getD i 0 := by
          intro h
          linarith
        have habs : |r2.getD i 0 - r3.getD i 0| > m := lt_abs.mpr (Or.inr (by linarith))
        rw [if_pos hB, if_neg hgt, if_pos ⟨hact, habs⟩]
        ring
      · have habs : ¬|r2.getD i 0 - r3.getD i 0| > m := by
          intro h
          rcases lt_abs.mp h with h' | h'
          · exact hA (by linarith)
          · exact hB (by linarith)
        rw [if_neg hB, if_neg (fun h => habs h.2)]
  · rw [if_neg hact, if_neg (fun h => hact h.1)]

/-- C19 (amended): over exact arithmetic, with `Margin ≥ 0`, after `Forward_cpu` on the same
inputs (`N ≥ 1`), for each
requested input `k` and every example `i` the value written by
`RankingLossLayer::Backward_cpu` is `-lambda/N` when the hinge is active and
`|RefA[i] - RefB[i]| > Margin`, and `0` otherwise, whichever input is differentiated and
whichever reference is larger; so it is `0` or `-lambda/N`, for `lambda ≠ 0` it is
`-lambda/N` exactly in that case, and `GradA[i] = GradB[i]` when both are requested. -/
theorem Ranking_Backward_cpu_single_value (N : Nat) (hN : 1 ≤ N) (L : RankingLossLayer)
    (b0 b1 b2 b3 t : Blob) (ts topB : List Blob) (pd : List Bool)
    (h0 : b0.IsVec N) (h1 : b1.IsVec N) (h2 : b2.IsVec N) (h3 : b3.IsVec N)
    (hd : L.diff_.length = N) (hm : L.dist_mine_.length = N) (ht : 0 < t.data.length)
    (hm0 : 0 ≤ L.margin) (k : Nat) (hk : k < 2) (hp : pd.getD k false = true)
    (i : Nat) (hi : i < N) :
    gradOf ((L.Forward_cpu [b0, b1, b2, b3] (t :: ts)).1.Backward_cpu topB pd
        [b0, b1, b2, b3]) k i =
      (if L.margin - (L.Forward_cpu [b0, b1, b2, b3] (t :: ts)).1.dist_mine_.getD i 0 > 0 ∧
          |b2.data.getD i 0 - b3.data.getD i 0| > L.margin
        then -(lambdaOf topB / (N : ℚ)) else 0) ∧
    (gradOf ((L.Forward_cpu [b0, b1, b2, b3] (t :: ts)).1.Backward_cpu topB pd
        [b0, b1, b2, b3]) k i = 0 ∨
      gradOf ((L.Forward_cpu [b0, b1, b2, b3] (t :: ts)).1.Backward_cpu topB pd
        [b0, b1, b2, b3]) k i = -(lambdaOf topB / (N : ℚ))) ∧
    (lambdaOf topB ≠ 0 →
      (gradOf ((L.Forward_cpu [b0, b1, b2, b3] (t :: ts)).1.Backward_cpu topB pd
          [b0, b1, b2, b3]) k i = -(lambdaOf topB / (N : ℚ)) ↔
        L.margin - (L.Forward_cpu [b0, b1, b2, b3] (t :: ts)).1.dist_mine_.getD i 0 > 0 ∧
          |b2.data.getD i 0 - b3.data.getD i 0| > L.margin)) ∧
    (pd.getD 0 false = true → pd.getD 1 false = true →
      gradOf ((L.Forward_cpu [b0, b1, b2, b3] (t :: ts)).1.Backward_cpu topB pd
          [b0, b1, b2, b3]) 0 i =
        gradOf ((L.Forward_cpu [b0, b1, b2, b3] (t :: ts)).1.Backward_cpu topB pd
          [b0, b1, b2, b3]) 1 i) := by
  have hval : gradOf ((L.Forward_cpu [b0, b1, b2, b3] (t :: ts)).1.Backward_cpu topB pd
        [b0, b1, b2, b3]) k i =
      (if L.margin - (L.Forward_cpu [b0, b1, b2, b3] (t :: ts)).1.dist_mine_.getD i 0 > 0 ∧
          |b2.data.getD i 0 - b3.data.getD i 0| > L.margin
        then -(lambdaOf topB / (N : ℚ)) else 0) := by
    rw [Ranking_gradOf_Backward_cpu N _ topB pd b0 b1 b2 b3 h0 h1 k hk hp i hi]
    exact Ranking_gradValue_of_nonneg L.margin _ _ _ _ N i hm0
  have hN0 : (N : ℚ) ≠ 0 := by
    have : 0 < N := hN
    exact_mod_cast this.ne'
  refine ⟨hval, ?_, ?_, ?_⟩
  · rw [hval]
    split_ifs
    · exact Or.inr rfl
    · exact Or.inl rfl
  · intro hlam
    rw [hval]
    have hne : -(lambdaOf topB / (N : ℚ)) ≠ 0 := neg_ne_zero.mpr (div_ne_zero hlam hN0)
    constructor
    · intro h
      by_contra hc
      rw [if_neg hc] at h
      exact hne h.symm
    · intro h
      rw [if_pos h]
  · intro hpA hpB
    rw [Ranking_gradOf_Backward_cpu N _ topB pd b0 b1 b2 b3 h0 h1 0 (by decide) hpA i hi,
      Ranking_gradOf_Backward_cpu N _ topB pd b0 b1 b2 b3 h0 h1 1 (by decide) hpB i hi]

/-- Instance of C19: the gradient of ScoreB for a pair with `RefA > RefB + Margin`. -/
theorem Ranking_Backward_cpu_single_value_witness :
    gradOf ((RankingLossLayer.Forward_cpu ⟨3 / 10, [0], [0]⟩
        [vecBlob [0] [5], vecBlob [0] [5], vecBlob [1] [0], vecBlob [0] [0]]
        [⟨1, 1, 1, 1, [0], [1]⟩]).1.Backward_cpu [⟨1, 1, 1, 1, [0], [1]⟩] [true, true]
        [vecBlob [0] [5], vecBlob [0] [5], vecBlob [1] [0], vecBlob [0] [0]]) 1 0 = 0 ∨
      gradOf ((RankingLossLayer.Forward_cpu ⟨3 / 10, [0], [0]⟩
        [vecBlob [0] [5], vecBlob [0] [5], vecBlob [1] [0], vecBlob [0] [0]]
        [⟨1, 1, 1, 1, [0], [1]⟩]).1.Backward_cpu [⟨1, 1, 1, 1, [0], [1]⟩] [true, true]
        [vecBlob [0] [5], vecBlob [0] [5], vecBlob [1] [0], vecBlob [0] [0]]) 1 0 =
        -(lambdaOf [⟨1, 1, 1, 1, [0], [1]⟩] / ((1 : Nat) : ℚ)) :=
  (Ranking_Backward_cpu_single_value 1 (by decide) ⟨3 / 10, [0], [0]⟩
    (vecBlob [0] [5]) (vecBlob [0] [5]) (vecBlob [1] [0]) (vecBlob [0] [0])
    ⟨1, 1, 1, 1, [0], [1]⟩ [] [⟨1, 1, 1, 1, [0], [1]⟩] [true, true]
    (by decide) (by decide) (by decide) (by decide) rfl rfl (by decide)
    (by norm_num) 1 (by decide) rfl 0 (by decide)).2.1

/-! ## Swapping the two items of every pair -/

theorem Ranking_signedDistance_swap (m : ℚ) (a b ra rb : List ℚ) (i : Nat) (hm0 : 0 ≤ m) :
    RankingLossLayer.signedDistance m b a rb ra i =
      RankingLossLayer.signedDistance m a b ra rb i := by
  unfold RankingLossLayer.signedDistance
  by_cases hA : ra.getD i 0 > rb.getD i 0 + m
  · have h1 : ¬rb.getD i 0 > ra.getD i 0 + m := by
      intro h
      linarith
    have h2 : rb.getD i 0 < ra.getD i 0 - m := by linarith
    rw [if_pos hA, if_neg h1, if_pos h2]
    ring
  · by_cases hB : ra.getD i 0 < rb.getD i 0 - m
    · have h1 : rb.getD i 0 > ra.getD i 0 + m := by linarith
      rw [if_neg hA, if_pos hB, if_pos h1]
      ring
    · have h1 : ¬rb.getD i 0 > ra.getD i 0 + m := by
        intro h
        exact hB (by linarith)
      have h2 : ¬rb.getD i 0 < ra.getD i 0 - m := by
        intro h
        exact hA (by linarith)
      rw [if_neg hA, if_neg hB, if_neg h1, if_neg h2]

/-- C20 (amended): over exact arithmetic, with `Margin ≥ 0`, for `N ≥ 1` and inputs of
length `N`,
`RankingLossLayer::Forward_cpu` on `(ScoreB, ScoreA, RefB, RefA)` returns the same loss and
the same SignedDistance as on `(ScoreA, ScoreB, RefA, RefB)`, with Difference negated; with
the negative margin `-1` and `ScoreA = [0]`, `ScoreB = [5]`, `RefA = RefB = [0]` the two
losses differ (`4` and `0`). -/
theorem Ranking_Forward_cpu_swap (N : Nat) (hN : 1 ≤ N) (L : RankingLossLayer)
    (b0 b1 b2 b3 t : Blob) (ts : List Blob)
    (h0 : b0.IsVec N) (h1 : b1.IsVec N) (h2 : b2.IsVec N) (h3 : b3.IsVec N)
    (hd : L.diff_.length = N) (hm : L.dist_mine_.length = N) (ht : 0 < t.data.length)
    (hm0 : 0 ≤ L.margin) :
    lossOf (L.Forward_cpu [b1, b0, b3, b2] (t :: ts)).2 =
      lossOf (L.Forward_cpu [b0, b1, b2, b3] (t :: ts)).2 ∧
    (L.Forward_cpu [b1, b0, b3, b2] (t :: ts)).1.dist_mine_ =
      (L.Forward_cpu [b0, b1, b2, b3] (t :: ts)).1.dist_mine_ ∧
    (∀ i, i < N → (L.Forward_cpu [b1, b0, b3, b2] (t :: ts)).1.diff_.getD i 0 =
      -((L.Forward_cpu [b0, b1, b2, b3] (t :: ts)).1.diff_.getD i 0)) ∧
    lossOf (RankingLossLayer.Forward_cpu ⟨-1, [0], [0]⟩
        [vecBlob [0] [0], vecBlob [5] [0], vecBlob [0] [0], vecBlob [0] [0]]
        [⟨1, 1, 1, 1, [0], [1]⟩]).2 = 4 ∧
    lossOf (RankingLossLayer.Forward_cpu ⟨-1, [0], [0]⟩
        [vecBlob [5] [0], vecBlob [0] [0], vecBlob [0] [0], vecBlob [0] [0]]
        [⟨1, 1, 1, 1, [0], [1]⟩]).2 = 0 := by
  obtain ⟨hD, -, -⟩ := Ranking_Forward_cpu_closed N L b0 b1 b2 b3 t ts h0 hd hm ht
  obtain ⟨hD', -, -⟩ := Ranking_Forward_cpu_closed N L b1 b0 b3 b2 t ts h1 hd hm ht
  have hS := Ranking_Forward_cpu_state N L b0 b1 b2 b3 t ts h0 hd hm
  have hS' := Ranking_Forward_cpu_state N L b1 b0 b3 b2 t ts h1 hd hm
  have hfun : (fun (j : Nat) (_ : ℚ) =>
        RankingLossLayer.signedDistance L.margin b1.data b0.data b3.data b2.data j) =
      fun j _ => RankingLossLayer.signedDistance L.margin b0.data b1.data b2.data b3.data j := by
    funext j _
    exact Ranking_signedDistance_swap L.margin _ _ _ _ j hm0
  refine ⟨?_, ?_, ?_, ?_, ?_⟩
  · rw [hS, hS']
    simp only [lossOf, List.getD_cons_zero, getD_set, ht, and_self, if_true]
    congr 1
    apply Finset.sum_congr rfl
    intro i _
    rw [Ranking_signedDistance_swap L.margin _ _ _ _ i hm0]
  · rw [hS, hS']
    dsimp only
    rw [hfun]
  · intro i hi
    rw [hD i hi, hD' i hi]
    ring
  · norm_num [lossOf, RankingLossLayer.Forward_cpu, RankingLossLayer.forwardBody, forLoop,
      caffe_sub, vecBlob, Blob.count, List.range_succ]
  · norm_num [lossOf, RankingLossLayer.Forward_cpu, RankingLossLayer.forwardBody, forLoop,
      caffe_sub, vecBlob, Blob.count, List.range_succ]

/-- Instance of C20: the worked example of the specification and its swap. -/
theorem Ranking_Forward_cpu_swap_witness :
    lossOf (RankingLossLayer.Forward_cpu ⟨3 / 10, [0, 0], [0, 0]⟩
        [vecBlob [0, 0] [0, 0], vecBlob [1, 0] [0, 0], vecBlob [0, 1] [0, 0],
          vecBlob [1, 0] [0, 0]] [⟨1, 1, 1, 1, [0], [1]⟩]).2 =
      lossOf (RankingLossLayer.Forward_cpu ⟨3 / 10, [0, 0], [0, 0]⟩
        [vecBlob [1, 0] [0, 0], vecBlob [0, 0] [0, 0], vecBlob [1, 0] [0, 0],
          vecBlob [0, 1] [0, 0]] [⟨1, 1, 1, 1, [0], [1]⟩]).2 :=
  (Ranking_Forward_cpu_swap 2 (by decide) ⟨3 / 10, [0, 0], [0, 0]⟩
    (vecBlob [1, 0] [0, 0]) (vecBlob [0, 0] [0, 0]) (vecBlob [1, 0] [0, 0])
    (vecBlob [0, 1] [0, 0]) ⟨1, 1, 1, 1, [0], [1]⟩ []
    (by decide) (by decide) (by decide) (by decide) rfl rfl (by decide) (by norm_num)).1

/-! ## The exact instance of `Dtype` -/

theorem Ranking_Forward_cpu_at_exact (L : RankingLossLayer) (bottom top : List Blob) :
    RankingLossLayer.Forward_cpu_at Dtype.exact L bottom top = L.Forward_cpu bottom top := rfl

theorem Ranking_Backward_cpu_at_exact (L : RankingLossLayer) (top : List Blob)
    (pd : List Bool) (bottom : List Blob) :
    RankingLossLayer.Backward_cpu_at Dtype.exact L top pd bottom =
      L.Backward_cpu top pd bottom := rfl

theorem RealRanking_Forward_cpu_at_exact (L : RealRankingLossLayer) (bottom top : List Blob) :
    RealRankingLossLayer.Forward_cpu_at Dtype.exact L bottom top =
      L.Forward_cpu bottom top := rfl

theorem RealRanking_Backward_cpu_at_exact (L : RealRankingLossLayer) (top : List Blob)
    (pd : List Bool) (bottom : List Blob) :
    RealRankingLossLayer.Backward_cpu_at Dtype.exact L top pd bottom =
      L.Backward_cpu top pd bottom := rfl

/-! ## The `float` instance: rounding breaks the exact identities -/

/-- Reference values of the rounding to binary32: `0.1f`, `0.2f`, `0.3f`, the tie
`2^24 + 1` (rounds to the even `2^24`), a representable value, the underflow tie `2^-150`
(rounds to `0`) and `3 * 2^-150` (rounds to `2^-148`). -/
theorem fl32_values :
    fl32 (1 / 10) = 13421773 / 134217728 ∧ fl32 (2 / 10) = 13421773 / 67108864 ∧
    fl32 (3 / 10) = 5033165 / 16777216 ∧ fl32 16777217 = 16777216 ∧
    fl32 (-5 / 4) = -5 / 4 ∧ fl32 (1 / 2 ^ 150) = 0 ∧ fl32 (3 / 2 ^ 150) = 1 / 2 ^ 148 := by
  decide!


/-- C8 (counterexample, `Dtype = float`): with `N = 1`, `Margin = 0.3f`, `lambda = 1`,
`ScoreA = ScoreB = [0]`, `RefA = [160]`, `RefB = [0]` and `eps = 0.1f`, the hinge is active
and `|eps| < Margin - SignedDistance[0]`; the forward loss goes from `5033165/16777216`
(0.300000012) to `6710887/33554432` (0.200000018), a difference of `-3355443/33554432`,
while `GradA[0] = -1` and `eps * GradA[0] = -13421773/134217728`. -/
theorem RealRanking_Backward_cpu_float_not_gradient :
    fl32 (3 / 10) - (RealRankingLossLayer.Forward_cpu_at Dtype.float
        ⟨fl32 (3 / 10), [0], [0], [0], [0]⟩
        [vecBlob [0] [0], vecBlob [0] [0], vecBlob [160] [0], vecBlob [0] [0]]
        [⟨1, 1, 1, 1, [0], [1]⟩]).1.dist_mine_.getD 0 0 > 0 ∧
    |fl32 (1 / 10)| < fl32 (3 / 10) - (RealRankingLossLayer.Forward_cpu_at Dtype.float
        ⟨fl32 (3 / 10), [0], [0], [0], [0]⟩
        [vecBlob [0] [0], vecBlob [0] [0], vecBlob [160] [0], vecBlob [0] [0]]
        [⟨1, 1, 1, 1, [0], [1]⟩]).1.dist_mine_.getD 0 0 ∧
    lossOf (RealRankingLossLayer.Forward_cpu_at Dtype.float
        ⟨fl32 (3 / 10), [0], [0], [0], [0]⟩
        [vecBlob [0] [0], vecBlob [0] [0], vecBlob [160] [0], vecBlob [0] [0]]
        [⟨1, 1, 1, 1, [0], [1]⟩]).2 = 5033165 / 16777216 ∧
    lossOf (RealRankingLossLayer.Forward_cpu_at Dtype.float
        ⟨fl32 (3 / 10), [0], [0], [0], [0]⟩
        [vecBlob [0 + fl32 (1 / 10)] [0], vecBlob [0] [0], vecBlob [160] [0], vecBlob [0] [0]]
        [⟨1, 1, 1, 1, [0], [1]⟩]).2 = 6710887 / 33554432 ∧
    gradOf (RealRankingLossLayer.Backward_cpu_at Dtype.float
        (RealRankingLossLayer.Forward_cpu_at Dtype.float ⟨fl32 (3 / 10), [0], [0], [0], [0]⟩
          [vecBlob [0] [0], vecBlob [0] [0], vecBlob [160] [0], vecBlob [0] [0]] [⟨1, 1, 1, 1, [0], [1]⟩]).1
        [⟨1, 1, 1, 1, [0], [1]⟩] [true, true]
        [vecBlob [0] [0], vecBlob [0] [0], vecBlob [160] [0], vecBlob [0] [0]]) 0 0 = -1 ∧
    lossOf (RealRankingLossLayer.Forward_cpu_at Dtype.float
        ⟨fl32 (3 / 10), [0], [0], [0], [0]⟩
        [vecBlob [0 + fl32 (1 / 10)] [0], vecBlob [0] [0], vecBlob [160] [0], vecBlob [0] [0]]
        [⟨1, 1, 1, 1, [0], [1]⟩]).2 -
      lossOf (RealRankingLossLayer.Forward_cpu_at Dtype.float
        ⟨fl32 (3 / 10), [0], [0], [0], [0]⟩
        [vecBlob [0] [0], vecBlob [0] [0], vecBlob [160] [0], vecBlob [0] [0]]
        [⟨1, 1, 1, 1, [0], [1]⟩]).2 ≠
      fl32 (1 / 10) * gradOf (RealRankingLossLayer.Backward_cpu_at Dtype.float
        (RealRankingLossLayer.Forward_cpu_at Dtype.float ⟨fl32 (3 / 10), [0], [0], [0], [0]⟩
          [vecBlob [0] [0], vecBlob [0] [0], vecBlob [160] [0], vecBlob [0] [0]] [⟨1, 1, 1, 1, [0], [1]⟩]).1
        [⟨1, 1, 1, 1, [0], [1]⟩] [true, true]
        [vecBlob [0] [0], vecBlob [0] [0], vecBlob [160] [0], vecBlob [0] [0]]) 0 0 := by
  decide!

/-- C11 (counterexample, `Dtype = float`): with `N = 2`, `Margin = 2^-149` (the least
positive `float`), `ScoreA = [1, 0]`, `ScoreB = [0, 0]`, `RefA = [1, 0]`, `RefB = [0, 0]`
the penalties are `0` and `2^-149`, their sum divided by `2` rounds to `0`, so the returned
loss is `0` although `SignedDistance[1] = 0 < Margin`. -/
theorem Ranking_Forward_cpu_float_loss_zero :
    lossOf (RankingLossLayer.Forward_cpu_at Dtype.float ⟨fl32 (1 / 2 ^ 149), [0, 0], [0, 0]⟩
        [vecBlob [1, 0] [0, 0], vecBlob [0, 0] [0, 0], vecBlob [1, 0] [0, 0],
          vecBlob [0, 0] [0, 0]] [⟨1, 1, 1, 1, [0], [1]⟩]).2 = 0 ∧
    (RankingLossLayer.Forward_cpu_at Dtype.float ⟨fl32 (1 / 2 ^ 149), [0, 0], [0, 0]⟩
        [vecBlob [1, 0] [0, 0], vecBlob [0, 0] [0, 0], vecBlob [1, 0] [0, 0],
          vecBlob [0, 0] [0, 0]] [⟨1, 1, 1, 1, [0], [1]⟩]).1.dist_mine_.getD 1 0 = 0 ∧
    fl32 (1 / 2 ^ 149) = 1 / 2 ^ 149 ∧
    ¬(fl32 (1 / 2 ^ 149) ≤ (RankingLossLayer.Forward_cpu_at Dtype.float
        ⟨fl32 (1 / 2 ^ 149), [0, 0], [0, 0]⟩
        [vecBlob [1, 0] [0, 0], vecBlob [0, 0] [0, 0], vecBlob [1, 0] [0, 0],
          vecBlob [0, 0] [0, 0]] [⟨1, 1, 1, 1, [0], [1]⟩]).1.dist_mine_.getD 1 0) := by
  decide!

/-- C12 (counterexample, `Dtype = float`): with `N = 6`, `Margin = 0.3f` and all references
`0` (so `|RefA[i] - RefB[i]| = 0 ≤ Margin` for every `i`), the returned loss is
`10066329/33554432` (0.299999982), not `Margin = 5033165/16777216` (0.300000012). -/
theorem Ranking_Forward_cpu_float_margin_band :
    |(0 : ℚ) - 0| ≤ fl32 (3 / 10) ∧
    lossOf (RankingLossLayer.Forward_cpu_at Dtype.float
        ⟨fl32 (3 / 10), [0, 0, 0, 0, 0, 0], [0, 0, 0, 0, 0, 0]⟩
        [vecBlob [0, 0, 0, 0, 0, 0] [0, 0, 0, 0, 0, 0],
          vecBlob [0, 0, 0, 0, 0, 0] [0, 0, 0, 0, 0, 0],
          vecBlob [0, 0, 0, 0, 0, 0] [0, 0, 0, 0, 0, 0],
          vecBlob [0, 0, 0, 0, 0, 0] [0, 0, 0, 0, 0, 0]] [⟨1, 1, 1, 1, [0], [1]⟩]).2 = 10066329 / 33554432 ∧
    fl32 (3 / 10) = 5033165 / 16777216 ∧
    lossOf (RankingLossLayer.Forward_cpu_at Dtype.float
        ⟨fl32 (3 / 10), [0, 0, 0, 0, 0, 0], [0, 0, 0, 0, 0, 0]⟩
        [vecBlob [0, 0, 0, 0, 0, 0] [0, 0, 0, 0, 0, 0],
          vecBlob [0, 0, 0, 0, 0, 0] [0, 0, 0, 0, 0, 0],
          vecBlob [0, 0, 0, 0, 0, 0] [0, 0, 0, 0, 0, 0],
          vecBlob [0, 0, 0, 0, 0, 0] [0, 0, 0, 0, 0, 0]] [⟨1, 1, 1, 1, [0], [1]⟩]).2 ≠ fl32 (3 / 10) := by
  decide!

/-- C18 (counterexample, `Dtype = float`): with `N = 1`, `Margin = 0.3f`, `ScoreA = [0.1f]`,
`ScoreB = [0]`, `RefA = [1]`, `RefB = [0]` and the shift `c = [1]`, the cached Difference is
`13421773/134217728` (0.100000001) before the shift and `838861/8388608` (0.100000024)
after it, and the loss goes from `6710887/33554432` to `3355443/16777216`. -/
theorem Ranking_Forward_cpu_float_shift :
    (RankingLossLayer.Forward_cpu_at Dtype.float ⟨fl32 (3 / 10), [0], [0]⟩
        [vecBlob [fl32 (1 / 10)] [0], vecBlob [0] [0], vecBlob [1] [0], vecBlob [0] [0]]
        [⟨1, 1, 1, 1, [0], [1]⟩]).1.diff_ = [13421773 / 134217728] ∧
    (RankingLossLayer.Forward_cpu_at Dtype.float ⟨fl32 (3 / 10), [0], [0]⟩
        [vecBlob (List.zipWith Dtype.float.add [fl32 (1 / 10)] [1]) [0],
          vecBlob (List.zipWith Dtype.float.add [0] [1]) [0], vecBlob [1] [0], vecBlob [0] [0]]
        [⟨1, 1, 1, 1, [0], [1]⟩]).1.diff_ = [838861 / 8388608] ∧
    lossOf (RankingLossLayer.Forward_cpu_at Dtype.float ⟨fl32 (3 / 10), [0], [0]⟩
        [vecBlob [fl32 (1 / 10)] [0], vecBlob [0] [0], vecBlob [1] [0], vecBlob [0] [0]]
        [⟨1, 1, 1, 1, [0], [1]⟩]).2 = 6710887 / 33554432 ∧
    lossOf (RankingLossLayer.Forward_cpu_at Dtype.float ⟨fl32 (3 / 10), [0], [0]⟩
        [vecBlob (List.zipWith Dtype.float.add [fl32 (1 / 10)] [1]) [0],
          vecBlob (List.zipWith Dtype.float.add [0] [1]) [0], vecBlob [1] [0], vecBlob [0] [0]]
        [⟨1, 1, 1, 1, [0], [1]⟩]).2 = 3355443 / 16777216 := by
  decide!

/-- C19 (counterexample, `Dtype = float`): with `N = 1`, `Margin = 0.1f ≥ 0`, `lambda = 1`,
`ScoreA = ScoreB = [0]`, `RefA = [0.3f]`, `RefB = [0.2f]` and both gradients requested, the
hinge is active and `|RefA[0] - RefB[0]| > Margin`, but `RefB[0] + Margin` rounds to
`RefA[0]`, no margin test fires, and both stored gradients are `0`, not `-lambda/N = -1`. -/
theorem Ranking_Backward_cpu_float_band :
    fl32 (1 / 10) - (RankingLossLayer.Forward_cpu_at Dtype.float ⟨fl32 (1 / 10), [0], [0]⟩
        [vecBlob [0] [0], vecBlob [0] [0], vecBlob [fl32 (3 / 10)] [0],
          vecBlob [fl32 (2 / 10)] [0]] [⟨1, 1, 1, 1, [0], [1]⟩]).1.dist_mine_.getD 0 0 > 0 ∧
    |fl32 (3 / 10) - fl32 (2 / 10)| > fl32 (1 / 10) ∧
    fl32 (fl32 (2 / 10) + fl32 (1 / 10)) = fl32 (3 / 10) ∧
    gradOf (RankingLossLayer.Backward_cpu_at Dtype.float
        (RankingLossLayer.Forward_cpu_at Dtype.float ⟨fl32 (1 / 10), [0], [0]⟩
          [vecBlob [0] [0], vecBlob [0] [0], vecBlob [fl32 (3 / 10)] [0],
            vecBlob [fl32 (2 / 10)] [0]] [⟨1, 1, 1, 1, [0], [1]⟩]).1 [⟨1, 1, 1, 1, [0], [1]⟩] [true, true]
        [vecBlob [0] [0], vecBlob [0] [0], vecBlob [fl32 (3 / 10)] [0],
          vecBlob [fl32 (2 / 10)] [0]]) 0 0 = 0 ∧
    gradOf (RankingLossLayer.Backward_cpu_at Dtype.float
        (RankingLossLayer.Forward_cpu_at Dtype.float ⟨fl32 (1 / 10), [0], [0]⟩
          [vecBlob [0] [0], vecBlob [0] [0], vecBlob [fl32 (3 / 10)] [0],
            vecBlob [fl32 (2 / 10)] [0]] [⟨1, 1, 1, 1, [0], [1]⟩]).1 [⟨1, 1, 1, 1, [0], [1]⟩] [true, true]
        [vecBlob [0] [0], vecBlob [0] [0], vecBlob [fl32 (3 / 10)] [0],
          vecBlob [fl32 (2 / 10)] [0]]) 1 0 = 0 := by
  decide!

/-- C20 (counterexample, `Dtype = float`): with `N = 1`, `Margin = 0.1f ≥ 0`,
`ScoreA = [5]`, `ScoreB = [0]`, `RefA = [0.2f]`, `RefB = [0.3f]` the loss is
`10695475/2097152` (5.0999999) and the cached SignedDistance is `-5`, while on the swapped
input `(ScoreB, ScoreA, RefB, RefA)` the loss is `13421773/134217728` (0.100000001) and the
cached SignedDistance is `0`: `RefB - Margin` rounds above `RefA`, `RefA + Margin` rounds
to `RefB`. -/
theorem Ranking_Forward_cpu_float_swap :
    lossOf (RankingLossLayer.Forward_cpu_at Dtype.float ⟨fl32 (1 / 10), [0], [0]⟩
        [vecBlob [5] [0], vecBlob [0] [0], vecBlob [fl32 (2 / 10)] [0],
          vecBlob [fl32 (3 / 10)] [0]] [⟨1, 1, 1, 1, [0], [1]⟩]).2 = 10695475 / 2097152 ∧
    lossOf (RankingLossLayer.Forward_cpu_at Dtype.float ⟨fl32 (1 / 10), [0], [0]⟩
        [vecBlob [0] [0], vecBlob [5] [0], vecBlob [fl32 (3 / 10)] [0],
          vecBlob [fl32 (2 / 10)] [0]] [⟨1, 1, 1, 1, [0], [1]⟩]).2 = 13421773 / 134217728 ∧
    (RankingLossLayer.Forward_cpu_at Dtype.float ⟨fl32 (1 / 10), [0], [0]⟩
        [vecBlob [5] [0], vecBlob [0] [0], vecBlob [fl32 (2 / 10)] [0],
          vecBlob [fl32 (3 / 10)] [0]] [⟨1, 1, 1, 1, [0], [1]⟩]).1.dist_mine_ = [-5] ∧
    (RankingLossLayer.Forward_cpu_at Dtype.float ⟨fl32 (1 / 10), [0], [0]⟩
        [vecBlob [0] [0], vecBlob [5] [0], vecBlob [fl32 (3 / 10)] [0],
          vecBlob [fl32 (2 / 10)] [0]] [⟨1, 1, 1, 1, [0], [1]⟩]).1.dist_mine_ = [0] := by
  decide!

end caffe
